import Mathlib

/-!
# Gamma_Distribution

A shallow embedding of `Gamma_Distribution.cpp` / `Gamma_Distribution.h`
(version 0.0.1) and theorems about it.

Conventions of the embedding.

* `double` is an arbitrary linearly ordered field `F`, so every function below is
  an executable definition (at `F := ℚ` it runs), and the theorems hold in
  particular over the real numbers.  Rounding, infinities and NaN are not modelled.
* `int error` is an `Int`; `return error;` from a function returning `double` is the
  cast `Int → F`.
* The functions of `<math.h>` and of `Gamma_Function.h` that the file calls are not
  part of the sources.  They are the fields of the parameter `Provider F`.
* `abs` is the `Arduino.h` absolute value, `|x|`.
* A member function whose control flow runs past both `if (Beta>0)` and
  `if (Theta>0)` reaches the closing brace without a `return`; the embedding
  returns `none` there and `some v` at every `return v;`.
* `GetMean`, `GetVariance`, `GetStdDeviation`, `GetSkewness` and `GetKurtosis` are
  defined in the `.cpp` file; the class declaration in the `.h` file does not list
  them.  They are embedded from their definitions.
-/

namespace GammaDist

/-! ## The external functions -/

/-- The functions the translation unit calls but does not define: `pow`, `exp`,
`log`, `sqrt` of `<math.h>` and the four functions of `Gamma_Function.h`. -/
structure Provider (F : Type) where
  pow : F → F → F
  exp : F → F
  log : F → F
  sqrt : F → F
  Gamma_Function : F → F
  Ln_Gamma_Function : F → F
  Gamma_Function_Max_Arg : F
  Lower_Incomplete_Gamma_Function : F → F → F

/-! ## The class -/

/-- The private data members of `class Gamma_Distribution`. -/
structure Gamma_Distribution (F : Type) where
  error : Int
  Alpha : F
  Beta : F
  Theta : F

section Code

variable {F : Type} [LinearOrderedField F]

/-- Source: `#define CONSTANT_EpsStop 0.0000001`. -/
def CONSTANT_EpsStop : F := 1 / 10000000

/-- The value of `error` at the end of the constructor body: the initial
assignment `error = 1;` followed by the nested `if`s, in source order. -/
def Gamma_Distribution.ctor_error (_Alpha _Beta _Theta : F) : Int :=
  let error : Int := 1
  if _Alpha ≤ 0 then
    -2
  else
    if _Beta > 0 ∧ _Theta > 0 then
      -3
    else
      let error := if _Beta > 0 ∧ _Theta ≤ 0 then 1 else error
      let error := if _Beta ≤ 0 ∧ _Theta > 0 then 1 else error
      let error := if _Beta ≤ 0 ∧ _Theta ≤ 0 then -4 else error
      error

/-- Source: `Gamma_Distribution::Gamma_Distribution(double _Alpha, double _Beta, double _Theta)`:
the status is computed, then the three inputs are stored unconditionally. -/
def Gamma_Distribution.ctor (_Alpha _Beta _Theta : F) : Gamma_Distribution F :=
  { error := Gamma_Distribution.ctor_error _Alpha _Beta _Theta
    Alpha := _Alpha
    Beta := _Beta
    Theta := _Theta }

/-- Source: `double Gamma_Distribution::GetPDF(double x)`. -/
def GetPDF (P : Provider F) (d : Gamma_Distribution F) (x : F) : Option F :=
  if d.error < 0 then
    some (d.error : F)
  else if x ≤ 0 then
    some 0
  else if d.Beta > 0 then
    if d.Alpha ≤ P.Gamma_Function_Max_Arg then
      some (P.pow d.Beta d.Alpha * P.pow x (d.Alpha - 1) * P.exp (-d.Beta * x)
        / P.Gamma_Function d.Alpha)
    else
      some (P.exp ((d.Alpha - 1) * P.log x - x - P.Ln_Gamma_Function d.Alpha))
  else if d.Theta > 0 then
    if d.Alpha ≤ P.Gamma_Function_Max_Arg then
      some (P.pow x (d.Alpha - 1) * P.exp (-x / d.Theta)
        / (P.pow d.Theta d.Alpha * P.Gamma_Function d.Alpha))
    else
      some (P.exp ((d.Alpha - 1) * P.log x - x - P.Ln_Gamma_Function d.Alpha))
  else
    none

/-- Source: `double Gamma_Distribution::GetCDF(double x)`. -/
def GetCDF (P : Provider F) (d : Gamma_Distribution F) (x : F) : Option F :=
  if d.error < 0 then
    some (d.error : F)
  else if x ≤ 0 then
    some 0
  else if d.Beta > 0 then
    if d.Alpha ≤ P.Gamma_Function_Max_Arg then
      some (P.Lower_Incomplete_Gamma_Function (x * d.Beta) d.Alpha / P.Gamma_Function d.Alpha)
    else
      some 1
  else if d.Theta > 0 then
    if d.Alpha ≤ P.Gamma_Function_Max_Arg then
      some (P.Lower_Incomplete_Gamma_Function (x / d.Theta) d.Alpha / P.Gamma_Function d.Alpha)
    else
      some 1
  else
    none

/-- Source: `double Gamma_Distribution::GetMean(void)`. -/
def GetMean (d : Gamma_Distribution F) : Option F :=
  if d.error < 0 then
    some (d.error : F)
  else if d.Beta > 0 then
    some (d.Alpha / d.Beta)
  else if d.Theta > 0 then
    some (d.Alpha * d.Theta)
  else
    none

/-- Source: `double Gamma_Distribution::GetVariance(void)`. -/
def GetVariance (P : Provider F) (d : Gamma_Distribution F) : Option F :=
  if d.error < 0 then
    some (d.error : F)
  else if d.Beta > 0 then
    some (d.Alpha / P.pow d.Beta 2)
  else if d.Theta > 0 then
    some (d.Alpha * P.pow d.Theta 2)
  else
    none

/-- Source: `double Gamma_Distribution::GetStdDeviation(void)`. -/
def GetStdDeviation (P : Provider F) (d : Gamma_Distribution F) : Option F :=
  if d.error < 0 then
    some (d.error : F)
  else if d.Beta > 0 then
    some (P.sqrt (d.Alpha / P.pow d.Beta 2))
  else if d.Theta > 0 then
    some (P.sqrt (d.Alpha * P.pow d.Theta 2))
  else
    none

/-- Source: `double Gamma_Distribution::GetSkewness(void)`. -/
def GetSkewness (P : Provider F) (d : Gamma_Distribution F) : Option F :=
  if d.error < 0 then
    some (d.error : F)
  else if d.Beta > 0 then
    some (2 / P.sqrt d.Alpha)
  else if d.Theta > 0 then
    some (2 / P.sqrt d.Alpha)
  else
    none

/-- Source: `double Gamma_Distribution::GetKurtosis(void)`. -/
def GetKurtosis (d : Gamma_Distribution F) : Option F :=
  if d.error < 0 then
    some (d.error : F)
  else if d.Beta > 0 then
    some (6 / d.Alpha)
  else if d.Theta > 0 then
    some (6 / d.Alpha)
  else
    none

/-- The local variables of `GetQuantile` once the `do ... while` loop has been left. -/
structure QuantileLocals (F : Type) where
  Vm : F
  Vh : F
  Vl : F
  Pr : F
  Eps : F
  i : Nat

/-- The `do { ... } while ((Eps > CONSTANT_EpsStop) && (i < 70));` loop of
`GetQuantile`, entered with the current `Vh`, `Vl` and `i`.  One unfolding is one
execution of the body followed by the test of the loop condition. -/
def GetQuantile_loop (P : Provider F) (d : Gamma_Distribution F) (p : F)
    (Vh Vl : F) (i : Nat) : Option (QuantileLocals F) :=
  let Vm := (Vh + Vl) / 2
  match GetCDF P d Vm with
  | none => none
  | some Pr =>
    let Eps := |Pr - p|
    let Vh1 := if Pr > p then Vm else Vh
    let Vl1 := if Pr > p then Vl else Vm
    if h : Eps > CONSTANT_EpsStop ∧ i + 1 < 70 then
      GetQuantile_loop P d p Vh1 Vl1 (i + 1)
    else
      some { Vm := Vm, Vh := Vh1, Vl := Vl1, Pr := Pr, Eps := Eps, i := i + 1 }
termination_by 70 - i
decreasing_by omega

/-- Source: `double Gamma_Distribution::GetQuantile(double p)`. -/
def GetQuantile (P : Provider F) (d : Gamma_Distribution F) (p : F) : Option F :=
  let Vh : F := 100
  let Vl : F := 0
  let i : Nat := 0
  if p ≤ 0 then
    some Vl
  else if p ≥ 1 then
    some Vh
  else
    match GetQuantile_loop P d p Vh Vl i with
    | none => none
    | some s => if s.i ≥ 70 then some (-9999) else some s.Vm

/-- One execution of the body of the `do ... while` loop of `GetQuantile`, entered
with the current `Vh`, `Vl` and `i`: the statements between `do {` and `}`, without
the test of the loop condition. -/
def GetQuantile_body (P : Provider F) (d : Gamma_Distribution F) (p : F)
    (Vh Vl : F) (i : Nat) : Option (QuantileLocals F) :=
  let Vm := (Vh + Vl) / 2
  match GetCDF P d Vm with
  | none => none
  | some Pr =>
    let Eps := |Pr - p|
    let Vh1 := if Pr > p then Vm else Vh
    let Vl1 := if Pr > p then Vl else Vm
    some { Vm := Vm, Vh := Vh1, Vl := Vl1, Pr := Pr, Eps := Eps, i := i + 1 }

/-- The bounds `(Vh, Vl)` of `GetQuantile` after `k` executions of the loop body,
started from `Vh = 100`, `Vl = 0`, `i = 0`.  The loop condition is not consulted:
the loop itself performs a prefix of these executions. -/
def GetQuantile_bracket (P : Provider F) (d : Gamma_Distribution F) (p : F) :
    Nat → Option (F × F)
  | 0 => some (100, 0)
  | k + 1 =>
    match GetQuantile_bracket P d p k with
    | none => none
    | some (Vh, Vl) =>
      match GetQuantile_body P d p Vh Vl k with
      | none => none
      | some s => some (s.Vh, s.Vl)

/-- The locals of `GetQuantile` right after execution number `k + 1` of the loop
body. -/
def GetQuantile_locals (P : Provider F) (d : Gamma_Distribution F) (p : F) (k : Nat) :
    Option (QuantileLocals F) :=
  match GetQuantile_bracket P d p k with
  | none => none
  | some (Vh, Vl) => GetQuantile_body P d p Vh Vl k

/-- The midpoints tested by the first `k` executions of the loop body, each with the
value `Pr` that `GetCDF` returned for it. -/
def GetQuantile_tested (P : Provider F) (d : Gamma_Distribution F) (p : F) (k : Nat) :
    List (F × F) :=
  (List.range k).filterMap
    (fun j => (GetQuantile_locals P d p j).map (fun t => (t.Vm, t.Pr)))

/-- Source: `double Gamma_Distribution::GetAlpha(void)`. -/
def GetAlpha (d : Gamma_Distribution F) : F := d.Alpha

/-- Source: `double Gamma_Distribution::GetBeta(void)`. -/
def GetBeta (d : Gamma_Distribution F) : F := d.Beta

/-- Source: `double Gamma_Distribution::GetTheta(void)`. -/
def GetTheta (d : Gamma_Distribution F) : F := d.Theta

/-- Source: `double Gamma_Distribution::GetShape(void)`. -/
def GetShape (d : Gamma_Distribution F) : F := d.Alpha

end Code

/-- Modelled from the spec: the special-function provider of section 6 and the
`<math.h>` functions, read over the real numbers (`Gamma_Function.h` is not part of
the sources).  `Gamma_Function` is the Gamma function, `Ln_Gamma_Function` its natural
logarithm, `Lower_Incomplete_Gamma_Function(x, a)` the non-regularized integral of
`t^(a-1) * e^(-t)` from `0` to `x`, and `Gamma_Function_Max_Arg()` is `171`, the
largest argument whose Gamma value fits a `double`.  It is used only to instantiate
the theorems; the code above does not depend on it. -/
noncomputable def realMath : Provider ℝ where
  pow := fun b e => b ^ e
  exp := Real.exp
  log := Real.log
  sqrt := Real.sqrt
  Gamma_Function := Real.Gamma
  Ln_Gamma_Function := fun a => Real.log (Real.Gamma a)
  Gamma_Function_Max_Arg := 171
  Lower_Incomplete_Gamma_Function := fun x a => ∫ t in (0 : ℝ)..x, t ^ (a - 1) * Real.exp (-t)

section Lemmas

variable {F : Type} [LinearOrderedField F]

/-- The constructor's status, as a case table. -/
theorem ctor_error_cases (a b t : F) :
    (a ≤ 0 → Gamma_Distribution.ctor_error a b t = -2) ∧
    (0 < a → 0 < b → 0 < t → Gamma_Distribution.ctor_error a b t = -3) ∧
    (0 < a → 0 < b → t ≤ 0 → Gamma_Distribution.ctor_error a b t = 1) ∧
    (0 < a → b ≤ 0 → 0 < t → Gamma_Distribution.ctor_error a b t = 1) ∧
    (0 < a → b ≤ 0 → t ≤ 0 → Gamma_Distribution.ctor_error a b t = -4) := by
  unfold Gamma_Distribution.ctor_error
  refine ⟨?_, ?_, ?_, ?_, ?_⟩
  · intro ha
    simp [ha]
  · intro ha hb ht
    simp [not_le.mpr ha, hb, ht]
  · intro ha hb ht
    simp [not_le.mpr ha, hb, ht, not_lt.mpr ht, not_le.mpr hb]
  · intro ha hb ht
    simp [not_le.mpr ha, hb, ht, not_lt.mpr hb, not_le.mpr ht]
  · intro ha hb ht
    simp [not_le.mpr ha, hb, ht, not_lt.mpr hb, not_lt.mpr ht]

/-- A non-negative status means a positive shape and exactly one positive
secondary parameter. -/
theorem ctor_error_nonneg_iff (a b t : F) :
    0 ≤ Gamma_Distribution.ctor_error a b t ↔
      0 < a ∧ ((0 < b ∧ ¬ 0 < t) ∨ (¬ 0 < b ∧ 0 < t)) := by
  obtain ⟨h2, h3, h1, h1', h4⟩ := ctor_error_cases a b t
  rcases le_or_lt a 0 with ha | ha
  · rw [h2 ha]
    constructor
    · intro h
      exact absurd h (by decide)
    · intro h
      exact absurd h.1 (not_lt.mpr ha)
  · rcases lt_or_le 0 b with hb | hb <;> rcases lt_or_le 0 t with ht | ht
    · rw [h3 ha hb ht]
      constructor
      · intro h
        exact absurd h (by decide)
      · rintro ⟨-, ⟨-, h⟩ | ⟨h, -⟩⟩
        · exact absurd ht h
        · exact absurd hb h
    · rw [h1 ha hb ht]
      exact ⟨fun _ => ⟨ha, Or.inl ⟨hb, not_lt.mpr ht⟩⟩, fun _ => by decide⟩
    · rw [h1' ha hb ht]
      exact ⟨fun _ => ⟨ha, Or.inr ⟨not_lt.mpr hb, ht⟩⟩, fun _ => by decide⟩
    · rw [h4 ha hb ht]
      constructor
      · intro h
        exact absurd h (by decide)
      · rintro ⟨-, ⟨h, -⟩ | ⟨-, h⟩⟩
        · exact absurd h (not_lt.mpr hb)
        · exact absurd h (not_lt.mpr ht)

/-- The status is one of the four codes. -/
theorem ctor_error_mem (a b t : F) :
    Gamma_Distribution.ctor_error a b t = 1 ∨ Gamma_Distribution.ctor_error a b t = -2 ∨
      Gamma_Distribution.ctor_error a b t = -3 ∨ Gamma_Distribution.ctor_error a b t = -4 := by
  obtain ⟨h2, h3, h1, h1', h4⟩ := ctor_error_cases a b t
  rcases le_or_lt a 0 with ha | ha
  · exact Or.inr (Or.inl (h2 ha))
  · rcases lt_or_le 0 b with hb | hb <;> rcases lt_or_le 0 t with ht | ht
    · exact Or.inr (Or.inr (Or.inl (h3 ha hb ht)))
    · exact Or.inl (h1 ha hb ht)
    · exact Or.inl (h1' ha hb ht)
    · exact Or.inr (Or.inr (Or.inr (h4 ha hb ht)))

/-! ### One execution of the loop body -/

/-- The loop is left after the current body when the condition fails. -/
theorem GetQuantile_loop_stop (P : Provider F) (d : Gamma_Distribution F) (p Vh Vl Pr : F)
    (i : Nat) (hc : GetCDF P d ((Vh + Vl) / 2) = some Pr)
    (hstop : ¬ (|Pr - p| > CONSTANT_EpsStop ∧ i + 1 < 70)) :
    GetQuantile_loop P d p Vh Vl i =
      some { Vm := (Vh + Vl) / 2
             Vh := if Pr > p then (Vh + Vl) / 2 else Vh
             Vl := if Pr > p then Vl else (Vh + Vl) / 2
             Pr := Pr
             Eps := |Pr - p|
             i := i + 1 } := by
  rw [GetQuantile_loop]
  simp only [hc]
  rw [dif_neg hstop]

/-- The body is executed again when the condition holds. -/
theorem GetQuantile_loop_continue (P : Provider F) (d : Gamma_Distribution F)
    (p Vh Vl Pr : F) (i : Nat) (hc : GetCDF P d ((Vh + Vl) / 2) = some Pr)
    (hgo : |Pr - p| > CONSTANT_EpsStop ∧ i + 1 < 70) :
    GetQuantile_loop P d p Vh Vl i =
      GetQuantile_loop P d p (if Pr > p then (Vh + Vl) / 2 else Vh)
        (if Pr > p then Vl else (Vh + Vl) / 2) (i + 1) := by
  rw [GetQuantile_loop]
  simp only [hc]
  rw [dif_pos hgo]

/-- An undefined `GetCDF` value makes the loop undefined. -/
theorem GetQuantile_loop_none (P : Provider F) (d : Gamma_Distribution F) (p Vh Vl : F)
    (i : Nat) (hc : GetCDF P d ((Vh + Vl) / 2) = none) :
    GetQuantile_loop P d p Vh Vl i = none := by
  rw [GetQuantile_loop]
  simp only [hc]

/-- What holds of the locals whenever the loop is left: the counter has advanced, `Pr`
is the `GetCDF` value at the last midpoint, `Eps` is its distance to `p`, and the loop
condition is false. -/
theorem GetQuantile_loop_exit (P : Provider F) (d : Gamma_Distribution F) (p : F) :
    ∀ (n i : Nat) (Vh Vl : F) (s : QuantileLocals F), 70 - i = n →
      GetQuantile_loop P d p Vh Vl i = some s →
      i < s.i ∧ GetCDF P d s.Vm = some s.Pr ∧ s.Eps = |s.Pr - p| ∧
        ¬ (s.Eps > CONSTANT_EpsStop ∧ s.i < 70) := by
  intro n
  induction n with
  | zero =>
    intro i Vh Vl s hn hs
    cases hc : GetCDF P d ((Vh + Vl) / 2) with
    | none =>
      rw [GetQuantile_loop_none P d p Vh Vl i hc] at hs
      exact absurd hs (by simp)
    | some Pr =>
      have hstop : ¬ (|Pr - p| > CONSTANT_EpsStop ∧ i + 1 < 70) := by
        rintro ⟨-, h⟩
        omega
      rw [GetQuantile_loop_stop P d p Vh Vl Pr i hc hstop] at hs
      cases hs
      exact ⟨Nat.lt_succ_self i, hc, rfl, hstop⟩
  | succ m ih =>
    intro i Vh Vl s hn hs
    cases hc : GetCDF P d ((Vh + Vl) / 2) with
    | none =>
      rw [GetQuantile_loop_none P d p Vh Vl i hc] at hs
      exact absurd hs (by simp)
    | some Pr =>
      by_cases hgo : |Pr - p| > CONSTANT_EpsStop ∧ i + 1 < 70
      · rw [GetQuantile_loop_continue P d p Vh Vl Pr i hc hgo] at hs
        obtain ⟨h1, h2, h3, h4⟩ := ih (i + 1) _ _ s (by omega) hs
        exact ⟨by omega, h2, h3, h4⟩
      · rw [GetQuantile_loop_stop P d p Vh Vl Pr i hc hgo] at hs
        cases hs
        exact ⟨Nat.lt_succ_self i, hc, rfl, hgo⟩

/-- The loop is left with a result whenever `GetCDF` is defined at every argument. -/
theorem GetQuantile_loop_isSome (P : Provider F) (d : Gamma_Distribution F) (p : F)
    (hdef : ∀ x, ∃ c, GetCDF P d x = some c) :
    ∀ (n i : Nat) (Vh Vl : F), 70 - i = n →
      ∃ s, GetQuantile_loop P d p Vh Vl i = some s := by
  intro n
  induction n with
  | zero =>
    intro i Vh Vl hn
    obtain ⟨Pr, hc⟩ := hdef ((Vh + Vl) / 2)
    have hstop : ¬ (|Pr - p| > CONSTANT_EpsStop ∧ i + 1 < 70) := by
      rintro ⟨-, h⟩
      omega
    exact ⟨_, GetQuantile_loop_stop P d p Vh Vl Pr i hc hstop⟩
  | succ m ih =>
    intro i Vh Vl hn
    obtain ⟨Pr, hc⟩ := hdef ((Vh + Vl) / 2)
    by_cases hgo : |Pr - p| > CONSTANT_EpsStop ∧ i + 1 < 70
    · rw [GetQuantile_loop_continue P d p Vh Vl Pr i hc hgo]
      exact ih (i + 1) _ _ (by omega)
    · exact ⟨_, GetQuantile_loop_stop P d p Vh Vl Pr i hc hgo⟩

/-- When no point strictly between `0` and `100` has a `GetCDF` value within the
tolerance of `p`, the loop started inside the bracket runs until `i` is `70`. -/
theorem GetQuantile_loop_exhausts (P : Provider F) (d : Gamma_Distribution F) (p : F)
    (hfar : ∀ x, 0 < x → x < 100 →
      ∃ c, GetCDF P d x = some c ∧ |c - p| > CONSTANT_EpsStop) :
    ∀ (n i : Nat) (Vh Vl : F), 70 - i = n → i < 70 → 0 ≤ Vl → Vl < Vh → Vh ≤ 100 →
      ∃ s, GetQuantile_loop P d p Vh Vl i = some s ∧ s.i = 70 := by
  intro n
  induction n with
  | zero =>
    intro i Vh Vl hn hi
    omega
  | succ m ih =>
    intro i Vh Vl hn hi hl hlh hh
    have hm1 : Vl < (Vh + Vl) / 2 := by linarith
    have hm2 : (Vh + Vl) / 2 < Vh := by linarith
    obtain ⟨Pr, hc, hPr⟩ := hfar ((Vh + Vl) / 2) (by linarith) (by linarith)
    by_cases hi' : i + 1 < 70
    · rw [GetQuantile_loop_continue P d p Vh Vl Pr i hc ⟨hPr, hi'⟩]
      by_cases hgt : Pr > p
      · rw [if_pos hgt, if_pos hgt]
        exact ih (i + 1) _ _ (by omega) hi' hl hm1 (by linarith)
      · rw [if_neg hgt, if_neg hgt]
        exact ih (i + 1) _ _ (by omega) hi' (by linarith) hm2 hh
    · have hstop : ¬ (|Pr - p| > CONSTANT_EpsStop ∧ i + 1 < 70) := fun h => hi' h.2
      refine ⟨_, GetQuantile_loop_stop P d p Vh Vl Pr i hc hstop, ?_⟩
      show i + 1 = 70
      omega

/-- For a constructed object `GetCDF` is defined at every argument: the fall-through
past both parameter branches is not reached. -/
theorem GetCDF_ctor_defined (P : Provider F) (a b t x : F) :
    ∃ c, GetCDF P (Gamma_Distribution.ctor a b t) x = some c := by
  by_cases he : (Gamma_Distribution.ctor a b t).error < 0
  · exact ⟨(((Gamma_Distribution.ctor a b t).error : Int) : F),
      by simp only [GetCDF, if_pos he]⟩
  · have hv : 0 ≤ Gamma_Distribution.ctor_error a b t := not_lt.mp he
    obtain ⟨-, hbt⟩ := (ctor_error_nonneg_iff a b t).mp hv
    have hbt' : 0 < b ∨ 0 < t := hbt.elim (fun h => Or.inl h.1) (fun h => Or.inr h.2)
    unfold GetCDF
    rw [if_neg he]
    show ∃ c, (if x ≤ 0 then some 0 else if b > 0 then _ else if t > 0 then _ else none)
      = some c
    split_ifs with h1 h2 h3 h4 h5
    · exact ⟨_, rfl⟩
    · exact ⟨_, rfl⟩
    · exact ⟨_, rfl⟩
    · exact ⟨_, rfl⟩
    · exact ⟨_, rfl⟩
    · exact absurd hbt' (by tauto)

/-- A validly constructed object has a positive shape and exactly one positive
secondary parameter. -/
theorem ctor_valid_params (a b t : F) (hv : 0 ≤ (Gamma_Distribution.ctor a b t).error) :
    0 < a ∧ ((0 < b ∧ ¬ 0 < t) ∨ (¬ 0 < b ∧ 0 < t)) :=
  (ctor_error_nonneg_iff a b t).mp hv

/-- The body of `GetPDF` past its two guards. -/
theorem GetPDF_of_valid (P : Provider F) (d : Gamma_Distribution F) (x : F)
    (he : 0 ≤ d.error) (hx : 0 < x) :
    GetPDF P d x =
      if d.Beta > 0 then
        if d.Alpha ≤ P.Gamma_Function_Max_Arg then
          some (P.pow d.Beta d.Alpha * P.pow x (d.Alpha - 1) * P.exp (-d.Beta * x)
            / P.Gamma_Function d.Alpha)
        else
          some (P.exp ((d.Alpha - 1) * P.log x - x - P.Ln_Gamma_Function d.Alpha))
      else if d.Theta > 0 then
        if d.Alpha ≤ P.Gamma_Function_Max_Arg then
          some (P.pow x (d.Alpha - 1) * P.exp (-x / d.Theta)
            / (P.pow d.Theta d.Alpha * P.Gamma_Function d.Alpha))
        else
          some (P.exp ((d.Alpha - 1) * P.log x - x - P.Ln_Gamma_Function d.Alpha))
      else
        none := by
  unfold GetPDF
  rw [if_neg (not_lt.mpr he), if_neg (not_le.mpr hx)]

/-- The body of `GetCDF` past its two guards. -/
theorem GetCDF_of_valid (P : Provider F) (d : Gamma_Distribution F) (x : F)
    (he : 0 ≤ d.error) (hx : 0 < x) :
    GetCDF P d x =
      if d.Beta > 0 then
        if d.Alpha ≤ P.Gamma_Function_Max_Arg then
          some (P.Lower_Incomplete_Gamma_Function (x * d.Beta) d.Alpha
            / P.Gamma_Function d.Alpha)
        else
          some 1
      else if d.Theta > 0 then
        if d.Alpha ≤ P.Gamma_Function_Max_Arg then
          some (P.Lower_Incomplete_Gamma_Function (x / d.Theta) d.Alpha
            / P.Gamma_Function d.Alpha)
        else
          some 1
      else
        none := by
  unfold GetCDF
  rw [if_neg (not_lt.mpr he), if_neg (not_le.mpr hx)]

/-- For `0 < p < 1`, `GetQuantile` is the final test on `i` applied to the locals the
loop leaves. -/
theorem GetQuantile_of_loop (P : Provider F)
    (d : Gamma_Distribution F) (p : F) (hp0 : 0 < p) (hp1 : p < 1) (s : QuantileLocals F)
    (hs : GetQuantile_loop P d p 100 0 0 = some s) :
    GetQuantile P d p = if s.i ≥ 70 then some (-9999) else some s.Vm := by
  unfold GetQuantile
  rw [if_neg (not_le.mpr hp0), if_neg (not_le.mpr hp1), hs]

/-! ### The loop body and its iterates -/

/-- What one execution of the body leaves in the locals. -/
theorem GetQuantile_body_spec (P : Provider F) (d : Gamma_Distribution F) (p Vh Vl : F)
    (i : Nat) (s : QuantileLocals F) (hs : GetQuantile_body P d p Vh Vl i = some s) :
    s.Vm = (Vh + Vl) / 2 ∧ GetCDF P d s.Vm = some s.Pr ∧ s.Eps = |s.Pr - p| ∧
      s.i = i + 1 ∧ s.Vh = (if s.Pr > p then s.Vm else Vh) ∧
      s.Vl = (if s.Pr > p then Vl else s.Vm) := by
  unfold GetQuantile_body at hs
  cases hc : GetCDF P d ((Vh + Vl) / 2) with
  | none =>
    simp only [hc] at hs
    exact absurd hs (by simp)
  | some Pr =>
    simp only [hc] at hs
    cases hs
    exact ⟨rfl, hc, rfl, rfl, rfl, rfl⟩

/-- The body returns locals whenever `GetCDF` is defined at the midpoint. -/
theorem GetQuantile_body_defined (P : Provider F) (d : Gamma_Distribution F) (p Vh Vl : F)
    (i : Nat) (hdef : ∀ x, ∃ c, GetCDF P d x = some c) :
    ∃ s, GetQuantile_body P d p Vh Vl i = some s := by
  obtain ⟨Pr, hc⟩ := hdef ((Vh + Vl) / 2)
  unfold GetQuantile_body
  simp only [hc]
  exact ⟨_, rfl⟩

/-- The loop, when the body leaves locals that fail the loop condition. -/
theorem GetQuantile_loop_of_body_stop (P : Provider F) (d : Gamma_Distribution F)
    (p Vh Vl : F) (i : Nat) (s : QuantileLocals F)
    (hs : GetQuantile_body P d p Vh Vl i = some s)
    (hstop : ¬ (s.Eps > CONSTANT_EpsStop ∧ s.i < 70)) :
    GetQuantile_loop P d p Vh Vl i = some s := by
  obtain ⟨hVm, hc, hEps, hi, -, -⟩ := GetQuantile_body_spec P d p Vh Vl i s hs
  rw [hVm] at hc
  have hstop' : ¬ (|s.Pr - p| > CONSTANT_EpsStop ∧ i + 1 < 70) := by
    rw [← hEps, ← hi]
    exact hstop
  rw [GetQuantile_loop_stop P d p Vh Vl s.Pr i hc hstop', ← hs]
  unfold GetQuantile_body
  simp only [hc]

/-- The loop, when the body leaves locals that satisfy the loop condition. -/
theorem GetQuantile_loop_of_body_continue (P : Provider F) (d : Gamma_Distribution F)
    (p Vh Vl : F) (i : Nat) (s : QuantileLocals F)
    (hs : GetQuantile_body P d p Vh Vl i = some s)
    (hgo : s.Eps > CONSTANT_EpsStop ∧ s.i < 70) :
    GetQuantile_loop P d p Vh Vl i = GetQuantile_loop P d p s.Vh s.Vl s.i := by
  obtain ⟨hVm, hc, hEps, hi, hVh, hVl⟩ := GetQuantile_body_spec P d p Vh Vl i s hs
  have hc' : GetCDF P d ((Vh + Vl) / 2) = some s.Pr := by
    rw [← hVm]
    exact hc
  have hgo' : |s.Pr - p| > CONSTANT_EpsStop ∧ i + 1 < 70 := by
    rw [← hEps, ← hi]
    exact hgo
  rw [GetQuantile_loop_continue P d p Vh Vl s.Pr i hc' hgo', ← hVm, ← hVh, ← hVl, ← hi]

/-- The locals after execution `k + 1` are the body applied to the bounds after `k`
executions. -/
theorem GetQuantile_locals_of_bracket (P : Provider F) (d : Gamma_Distribution F) (p : F)
    (k : Nat) (Vh Vl : F) (hb : GetQuantile_bracket P d p k = some (Vh, Vl)) :
    GetQuantile_locals P d p k = GetQuantile_body P d p Vh Vl k := by
  unfold GetQuantile_locals
  rw [hb]

/-- The bounds after `k + 1` executions are those left by execution `k + 1`. -/
theorem GetQuantile_bracket_succ (P : Provider F) (d : Gamma_Distribution F) (p : F)
    (k : Nat) (t : QuantileLocals F) (ht : GetQuantile_locals P d p k = some t) :
    GetQuantile_bracket P d p (k + 1) = some (t.Vh, t.Vl) := by
  unfold GetQuantile_locals at ht
  rw [GetQuantile_bracket]
  cases hb : GetQuantile_bracket P d p k with
  | none =>
    rw [hb] at ht
    exact absurd ht (by simp)
  | some b =>
    obtain ⟨Vh, Vl⟩ := b
    rw [hb] at ht
    have ht' : GetQuantile_body P d p Vh Vl k = some t := ht
    show (match GetQuantile_body P d p Vh Vl k with
      | none => none
      | some s => some (s.Vh, s.Vl)) = some (t.Vh, t.Vl)
    rw [ht']

/-- Locals after execution `k + 1` come from bounds after `k` executions. -/
theorem GetQuantile_locals_inv (P : Provider F) (d : Gamma_Distribution F) (p : F)
    (k : Nat) (t : QuantileLocals F) (ht : GetQuantile_locals P d p k = some t) :
    ∃ Vh Vl, GetQuantile_bracket P d p k = some (Vh, Vl) ∧
      GetQuantile_body P d p Vh Vl k = some t := by
  unfold GetQuantile_locals at ht
  cases hb : GetQuantile_bracket P d p k with
  | none =>
    rw [hb] at ht
    exact absurd ht (by simp)
  | some b =>
    obtain ⟨Vh, Vl⟩ := b
    rw [hb] at ht
    exact ⟨Vh, Vl, rfl, ht⟩

/-- Bounds after `k + 1` executions come from locals after execution `k + 1`. -/
theorem GetQuantile_bracket_succ_inv (P : Provider F) (d : Gamma_Distribution F) (p : F)
    (k : Nat) (Vh Vl : F) (hb : GetQuantile_bracket P d p (k + 1) = some (Vh, Vl)) :
    ∃ t, GetQuantile_locals P d p k = some t ∧ t.Vh = Vh ∧ t.Vl = Vl := by
  cases ht : GetQuantile_locals P d p k with
  | none =>
    unfold GetQuantile_locals at ht
    rw [GetQuantile_bracket] at hb
    cases hb' : GetQuantile_bracket P d p k with
    | none =>
      rw [hb'] at hb
      exact absurd hb (by simp)
    | some b =>
      obtain ⟨Vh0, Vl0⟩ := b
      rw [hb'] at hb ht
      have ht' : GetQuantile_body P d p Vh0 Vl0 k = none := ht
      have hb'' : (match GetQuantile_body P d p Vh0 Vl0 k with
        | none => none
        | some s => some (s.Vh, s.Vl)) = some (Vh, Vl) := hb
      rw [ht'] at hb''
      exact absurd hb'' (by simp)
  | some t =>
    rw [GetQuantile_bracket_succ P d p k t ht] at hb
    cases hb
    exact ⟨t, rfl, rfl, rfl⟩

/-- With `GetCDF` defined everywhere, every iterate of the body is defined. -/
theorem GetQuantile_bracket_defined (P : Provider F) (d : Gamma_Distribution F) (p : F)
    (hdef : ∀ x, ∃ c, GetCDF P d x = some c) :
    ∀ k, ∃ Vh Vl t, GetQuantile_bracket P d p k = some (Vh, Vl) ∧
      GetQuantile_locals P d p k = some t := by
  intro k
  induction k with
  | zero =>
    obtain ⟨t, ht⟩ := GetQuantile_body_defined P d p 100 0 0 hdef
    refine ⟨100, 0, t, rfl, ?_⟩
    rw [GetQuantile_locals_of_bracket P d p 0 100 0 rfl, ht]
  | succ k ih =>
    obtain ⟨Vh, Vl, t, -, ht⟩ := ih
    have hb := GetQuantile_bracket_succ P d p k t ht
    obtain ⟨t', ht'⟩ := GetQuantile_body_defined P d p t.Vh t.Vl (k + 1) hdef
    refine ⟨t.Vh, t.Vl, t', hb, ?_⟩
    rw [GetQuantile_locals_of_bracket P d p (k + 1) t.Vh t.Vl hb, ht']

/-- The counter after execution `k + 1` is `k + 1`. -/
theorem GetQuantile_locals_i (P : Provider F) (d : Gamma_Distribution F) (p : F)
    (k : Nat) (t : QuantileLocals F) (ht : GetQuantile_locals P d p k = some t) :
    t.i = k + 1 := by
  obtain ⟨Vh, Vl, -, hbody⟩ := GetQuantile_locals_inv P d p k t ht
  exact (GetQuantile_body_spec P d p Vh Vl k t hbody).2.2.2.1

/-- The loop entered with the bounds after `i` executions, none of which met the
tolerance, is left with the locals of some later execution, the first whose error
is within the tolerance or whose counter is `70`. -/
theorem GetQuantile_loop_trace (P : Provider F) (d : Gamma_Distribution F) (p : F) :
    ∀ (n i : Nat) (Vh Vl : F) (s : QuantileLocals F), 70 - i = n →
      GetQuantile_bracket P d p i = some (Vh, Vl) →
      (∀ j, j < i → ∃ t, GetQuantile_locals P d p j = some t ∧ t.Eps > CONSTANT_EpsStop) →
      GetQuantile_loop P d p Vh Vl i = some s →
      ∃ k, i ≤ k ∧ s.i = k + 1 ∧ GetQuantile_locals P d p k = some s ∧
        (∀ j, j < k → ∃ t, GetQuantile_locals P d p j = some t ∧ t.Eps > CONSTANT_EpsStop) ∧
        ¬ (s.Eps > CONSTANT_EpsStop ∧ s.i < 70) := by
  intro n
  induction n with
  | zero =>
    intro i Vh Vl s hn hb hprev hs
    cases hbody : GetQuantile_body P d p Vh Vl i with
    | none =>
      have hc : GetCDF P d ((Vh + Vl) / 2) = none := by
        cases hc : GetCDF P d ((Vh + Vl) / 2) with
        | none => rfl
        | some Pr =>
          unfold GetQuantile_body at hbody
          simp only [hc] at hbody
          exact absurd hbody (by simp)
      rw [GetQuantile_loop_none P d p Vh Vl i hc] at hs
      exact absurd hs (by simp)
    | some t =>
      have hti := (GetQuantile_body_spec P d p Vh Vl i t hbody).2.2.2.1
      have hstop : ¬ (t.Eps > CONSTANT_EpsStop ∧ t.i < 70) := by
        rintro ⟨-, h⟩
        omega
      rw [GetQuantile_loop_of_body_stop P d p Vh Vl i t hbody hstop] at hs
      cases hs
      refine ⟨i, le_rfl, hti, ?_, hprev, hstop⟩
      rw [GetQuantile_locals_of_bracket P d p i Vh Vl hb, hbody]
  | succ m ih =>
    intro i Vh Vl s hn hb hprev hs
    cases hbody : GetQuantile_body P d p Vh Vl i with
    | none =>
      have hc : GetCDF P d ((Vh + Vl) / 2) = none := by
        cases hc : GetCDF P d ((Vh + Vl) / 2) with
        | none => rfl
        | some Pr =>
          unfold GetQuantile_body at hbody
          simp only [hc] at hbody
          exact absurd hbody (by simp)
      rw [GetQuantile_loop_none P d p Vh Vl i hc] at hs
      exact absurd hs (by simp)
    | some t =>
      have hti := (GetQuantile_body_spec P d p Vh Vl i t hbody).2.2.2.1
      have hloc : GetQuantile_locals P d p i = some t := by
        rw [GetQuantile_locals_of_bracket P d p i Vh Vl hb, hbody]
      by_cases hgo : t.Eps > CONSTANT_EpsStop ∧ t.i < 70
      · rw [GetQuantile_loop_of_body_continue P d p Vh Vl i t hbody hgo, hti] at hs
        have hb' := GetQuantile_bracket_succ P d p i t hloc
        have hprev' : ∀ j, j < i + 1 →
            ∃ t, GetQuantile_locals P d p j = some t ∧ t.Eps > CONSTANT_EpsStop := by
          intro j hj
          rcases Nat.lt_succ_iff_lt_or_eq.mp hj with h | h
          · exact hprev j h
          · rw [h]
            exact ⟨t, hloc, hgo.1⟩
        obtain ⟨k, hk, h1, h2, h3, h4⟩ := ih (i + 1) t.Vh t.Vl s (by omega) hb' hprev' hs
        exact ⟨k, by omega, h1, h2, h3, h4⟩
      · rw [GetQuantile_loop_of_body_stop P d p Vh Vl i t hbody hgo] at hs
        cases hs
        exact ⟨i, le_rfl, hti, hloc, hprev, hgo⟩

/-- The bounds after `k` executions: `0 <= Vl < Vh <= 100` and `Vh - Vl = 100 / 2^k`. -/
theorem GetQuantile_bracket_bounds (P : Provider F) (d : Gamma_Distribution F) (p : F) :
    ∀ (k : Nat) (Vh Vl : F), GetQuantile_bracket P d p k = some (Vh, Vl) →
      0 ≤ Vl ∧ Vl < Vh ∧ Vh ≤ 100 ∧ Vh - Vl = 100 / 2 ^ k := by
  intro k
  induction k with
  | zero =>
    intro Vh Vl hb
    have hb' : some ((100 : F), (0 : F)) = some (Vh, Vl) := hb
    cases hb'
    refine ⟨le_rfl, by norm_num, le_rfl, by norm_num⟩
  | succ k ih =>
    intro Vh Vl hb
    obtain ⟨t, ht, hVh, hVl⟩ := GetQuantile_bracket_succ_inv P d p k Vh Vl hb
    obtain ⟨Vh0, Vl0, hb0, hbody⟩ := GetQuantile_locals_inv P d p k t ht
    obtain ⟨h0, hlt, h100, hw⟩ := ih Vh0 Vl0 hb0
    obtain ⟨hVm, -, -, -, htVh, htVl⟩ := GetQuantile_body_spec P d p Vh0 Vl0 k t hbody
    have hhalf : (100 : F) / 2 ^ (k + 1) = (Vh0 - Vl0) / 2 := by
      rw [hw, pow_succ, div_div]
    rw [← hVh, ← hVl, htVh, htVl, hhalf]
    by_cases hgt : t.Pr > p
    · rw [if_pos hgt, if_pos hgt, hVm]
      refine ⟨h0, by linarith, by linarith, by ring⟩
    · rw [if_neg hgt, if_neg hgt, hVm]
      refine ⟨by linarith, by linarith, h100, by ring⟩

/-- Every tested midpoint lies strictly inside the bounds it was computed from, hence
strictly between `0` and `100`. -/
theorem GetQuantile_locals_midpoint (P : Provider F) (d : Gamma_Distribution F) (p : F)
    (k : Nat) (t : QuantileLocals F) (ht : GetQuantile_locals P d p k = some t) :
    ∃ Vh Vl, GetQuantile_bracket P d p k = some (Vh, Vl) ∧ Vl < t.Vm ∧ t.Vm < Vh ∧
      0 < t.Vm ∧ t.Vm < 100 := by
  obtain ⟨Vh, Vl, hb, hbody⟩ := GetQuantile_locals_inv P d p k t ht
  obtain ⟨h0, hlt, h100, -⟩ := GetQuantile_bracket_bounds P d p k Vh Vl hb
  have hVm := (GetQuantile_body_spec P d p Vh Vl k t hbody).1
  refine ⟨Vh, Vl, hb, ?_, ?_, ?_, ?_⟩ <;> rw [hVm] <;> linarith

/-- Membership in the list of tested midpoints. -/
theorem mem_GetQuantile_tested (P : Provider F) (d : Gamma_Distribution F) (p : F)
    (k : Nat) (mc : F × F) :
    mc ∈ GetQuantile_tested P d p k ↔
      ∃ j, j < k ∧ ∃ t, GetQuantile_locals P d p j = some t ∧ (t.Vm, t.Pr) = mc := by
  unfold GetQuantile_tested
  rw [List.mem_filterMap]
  constructor
  · rintro ⟨j, hj, hmap⟩
    rw [Option.map_eq_some'] at hmap
    exact ⟨j, List.mem_range.mp hj, hmap⟩
  · rintro ⟨j, hj, hmap⟩
    refine ⟨j, List.mem_range.mpr hj, ?_⟩
    rw [Option.map_eq_some']
    exact hmap

/-- The midpoints tested by `k + 1` executions are those tested by `k` executions and
the midpoint of execution `k + 1`. -/
theorem mem_GetQuantile_tested_succ (P : Provider F) (d : Gamma_Distribution F) (p : F)
    (k : Nat) (t : QuantileLocals F) (ht : GetQuantile_locals P d p k = some t)
    (mc : F × F) :
    mc ∈ GetQuantile_tested P d p (k + 1) ↔
      mc ∈ GetQuantile_tested P d p k ∨ mc = (t.Vm, t.Pr) := by
  rw [mem_GetQuantile_tested, mem_GetQuantile_tested]
  constructor
  · rintro ⟨j, hj, t', ht', hmc⟩
    rcases Nat.lt_succ_iff_lt_or_eq.mp hj with h | h
    · exact Or.inl ⟨j, h, t', ht', hmc⟩
    · rw [h, ht] at ht'
      cases ht'
      exact Or.inr hmc.symm
  · rintro (⟨j, hj, t', ht', hmc⟩ | h)
    · exact ⟨j, Nat.lt_succ_of_lt hj, t', ht', hmc⟩
    · exact ⟨k, Nat.lt_succ_self k, t, ht, h.symm⟩

/-- Every tested midpoint is positive, below `100`, and recorded with its `GetCDF`
value. -/
theorem GetQuantile_tested_spec (P : Provider F) (d : Gamma_Distribution F) (p : F)
    (k : Nat) (mc : F × F) (hmc : mc ∈ GetQuantile_tested P d p k) :
    0 < mc.1 ∧ mc.1 < 100 ∧ GetCDF P d mc.1 = some mc.2 := by
  obtain ⟨j, -, t, ht, h⟩ := (mem_GetQuantile_tested P d p k mc).mp hmc
  obtain ⟨Vh, Vl, -, -, -, h0, h100⟩ := GetQuantile_locals_midpoint P d p j t ht
  obtain ⟨Vh', Vl', -, hbody⟩ := GetQuantile_locals_inv P d p j t ht
  have hc := (GetQuantile_body_spec P d p Vh' Vl' j t hbody).2.1
  rw [← h]
  exact ⟨h0, h100, hc⟩

/-- The bounds relative to the tested midpoints: no tested midpoint with value at most
`p` is above `Vl`, none with value above `p` is below `Vh`, `Vl` is `0` or such a
midpoint, and `Vh` is `100` or such a midpoint. -/
theorem GetQuantile_bracket_tested (P : Provider F) (d : Gamma_Distribution F) (p : F) :
    ∀ (k : Nat) (Vh Vl : F), GetQuantile_bracket P d p k = some (Vh, Vl) →
      (∀ mc ∈ GetQuantile_tested P d p k, mc.2 ≤ p → mc.1 ≤ Vl) ∧
      (∀ mc ∈ GetQuantile_tested P d p k, mc.2 > p → Vh ≤ mc.1) ∧
      (Vl = 0 ∨ ∃ c, (Vl, c) ∈ GetQuantile_tested P d p k ∧ c ≤ p) ∧
      (Vh = 100 ∨ ∃ c, (Vh, c) ∈ GetQuantile_tested P d p k ∧ c > p) := by
  intro k
  induction k with
  | zero =>
    intro Vh Vl hb
    have hb' : some ((100 : F), (0 : F)) = some (Vh, Vl) := hb
    cases hb'
    have hnil : ∀ mc : F × F, mc ∉ GetQuantile_tested P d p 0 := by
      intro mc hmc
      obtain ⟨j, hj, -⟩ := (mem_GetQuantile_tested P d p 0 mc).mp hmc
      exact absurd hj (Nat.not_lt_zero j)
    exact ⟨fun mc hmc => absurd hmc (hnil mc), fun mc hmc => absurd hmc (hnil mc),
      Or.inl rfl, Or.inl rfl⟩
  | succ k ih =>
    intro Vh Vl hb
    obtain ⟨t, ht, hVh, hVl⟩ := GetQuantile_bracket_succ_inv P d p k Vh Vl hb
    obtain ⟨Vh0, Vl0, hb0, hbody⟩ := GetQuantile_locals_inv P d p k t ht
    obtain ⟨Vh1, Vl1, hb1, hlo, hhi, -, -⟩ := GetQuantile_locals_midpoint P d p k t ht
    rw [hb0] at hb1
    cases hb1
    obtain ⟨ha, hb2, hc, hd⟩ := ih Vh0 Vl0 hb0
    obtain ⟨-, -, -, -, htVh, htVl⟩ := GetQuantile_body_spec P d p Vh0 Vl0 k t hbody
    have hmem := mem_GetQuantile_tested_succ P d p k t ht
    have hnew : (t.Vm, t.Pr) ∈ GetQuantile_tested P d p (k + 1) :=
      (hmem _).mpr (Or.inr rfl)
    rw [← hVh, ← hVl, htVh, htVl]
    by_cases hgt : t.Pr > p
    · rw [if_pos hgt, if_pos hgt]
      refine ⟨?_, ?_, ?_, Or.inr ⟨t.Pr, hnew, hgt⟩⟩
      · intro mc hmc hle
        rcases (hmem mc).mp hmc with h | h
        · exact ha mc h hle
        · rw [h] at hle
          exact absurd hgt (not_lt.mpr hle)
      · intro mc hmc hlt
        rcases (hmem mc).mp hmc with h | h
        · exact le_trans (le_of_lt hhi) (hb2 mc h hlt)
        · rw [h]
      · rcases hc with h | ⟨c, h, hcp⟩
        · exact Or.inl h
        · exact Or.inr ⟨c, (hmem _).mpr (Or.inl h), hcp⟩
    · rw [if_neg hgt, if_neg hgt]
      refine ⟨?_, ?_, Or.inr ⟨t.Pr, hnew, not_lt.mp hgt⟩, ?_⟩
      · intro mc hmc hle
        rcases (hmem mc).mp hmc with h | h
        · exact le_trans (ha mc h hle) (le_of_lt hlo)
        · rw [h]
      · intro mc hmc hlt
        rcases (hmem mc).mp hmc with h | h
        · exact hb2 mc h hlt
        · rw [h] at hlt
          exact absurd hlt hgt
      · rcases hd with h | ⟨c, h, hcp⟩
        · exact Or.inl h
        · exact Or.inr ⟨c, (hmem _).mpr (Or.inl h), hcp⟩

/-- The loop entered with `i < 70` is left with `i <= 70`. -/
theorem GetQuantile_loop_counter (P : Provider F) (d : Gamma_Distribution F) (p : F) :
    ∀ (n i : Nat) (Vh Vl : F) (s : QuantileLocals F), 70 - i = n → i < 70 →
      GetQuantile_loop P d p Vh Vl i = some s → s.i ≤ 70 := by
  intro n
  induction n with
  | zero =>
    intro i Vh Vl s hn hi
    omega
  | succ m ih =>
    intro i Vh Vl s hn hi hs
    cases hc : GetCDF P d ((Vh + Vl) / 2) with
    | none =>
      rw [GetQuantile_loop_none P d p Vh Vl i hc] at hs
      exact absurd hs (by simp)
    | some Pr =>
      by_cases hgo : |Pr - p| > CONSTANT_EpsStop ∧ i + 1 < 70
      · rw [GetQuantile_loop_continue P d p Vh Vl Pr i hc hgo] at hs
        exact ih (i + 1) _ _ s (by omega) hgo.2 hs
      · rw [GetQuantile_loop_stop P d p Vh Vl Pr i hc hgo] at hs
        cases hs
        show i + 1 ≤ 70
        omega

/-- The complete account of the loop as `GetQuantile` enters it: it is left with the
locals of execution number `s.i` of the body, `1 <= s.i <= 70`, every earlier execution
had an error above the tolerance, and the last one has an error within the tolerance
unless `s.i` is `70`. -/
theorem GetQuantile_loop_run (P : Provider F) (d : Gamma_Distribution F) (p : F)
    (s : QuantileLocals F) (hs : GetQuantile_loop P d p 100 0 0 = some s) :
    1 ≤ s.i ∧ s.i ≤ 70 ∧ GetQuantile_locals P d p (s.i - 1) = some s ∧
      (∀ j, j < s.i - 1 →
        ∃ t, GetQuantile_locals P d p j = some t ∧ t.Eps > CONSTANT_EpsStop) ∧
      (s.Eps ≤ CONSTANT_EpsStop ∨ s.i = 70) ∧
      GetQuantile_bracket P d p s.i = some (s.Vh, s.Vl) := by
  obtain ⟨k, -, hk, hloc, hprev, hexit⟩ := GetQuantile_loop_trace P d p 70 0 100 0 s rfl rfl
    (fun j hj => absurd hj (Nat.not_lt_zero j)) hs
  have hle := GetQuantile_loop_counter P d p 70 0 100 0 s rfl (by decide) hs
  have hk' : s.i - 1 = k := by omega
  refine ⟨by omega, hle, by rw [hk']; exact hloc, by rw [hk']; exact hprev, ?_, ?_⟩
  · by_cases h : s.Eps ≤ CONSTANT_EpsStop
    · exact Or.inl h
    · right
      by_contra hne
      exact hexit ⟨not_le.mp h, by omega⟩
  · rw [hk]
    exact GetQuantile_bracket_succ P d p k s hloc

/-! ### The two parameterization branches -/

/-- Status of an object built in the rate form. -/
theorem ctor_error_rate_form (a b t : F) (ha : 0 < a) (hb : 0 < b) (ht : t ≤ 0) :
    (Gamma_Distribution.ctor a b t).error = 1 :=
  (ctor_error_cases a b t).2.2.1 ha hb ht

/-- Status of an object built in the scale form. -/
theorem ctor_error_scale_form (a b t : F) (ha : 0 < a) (hb : b ≤ 0) (ht : 0 < t) :
    (Gamma_Distribution.ctor a b t).error = 1 :=
  (ctor_error_cases a b t).2.2.2.1 ha hb ht

/-- `GetPDF` and `GetCDF` of an object with non-negative status at `x <= 0`. -/
theorem GetPDF_GetCDF_nonpos (P : Provider F) (d : Gamma_Distribution F) (x : F)
    (he : 0 ≤ d.error) (hx : x ≤ 0) : GetPDF P d x = some 0 ∧ GetCDF P d x = some 0 := by
  constructor
  · unfold GetPDF
    rw [if_neg (not_lt.mpr he), if_pos hx]
  · unfold GetCDF
    rw [if_neg (not_lt.mpr he), if_pos hx]

/-- The moments of an object with non-negative status, in the rate branch. -/
theorem moments_rate_branch (P : Provider F) (d : Gamma_Distribution F)
    (he : 0 ≤ d.error) (hb : d.Beta > 0) :
    GetMean d = some (d.Alpha / d.Beta) ∧
    GetVariance P d = some (d.Alpha / P.pow d.Beta 2) ∧
    GetStdDeviation P d = some (P.sqrt (d.Alpha / P.pow d.Beta 2)) ∧
    GetSkewness P d = some (2 / P.sqrt d.Alpha) ∧
    GetKurtosis d = some (6 / d.Alpha) := by
  have he' : ¬ d.error < 0 := not_lt.mpr he
  refine ⟨?_, ?_, ?_, ?_, ?_⟩
  · unfold GetMean
    rw [if_neg he', if_pos hb]
  · unfold GetVariance
    rw [if_neg he', if_pos hb]
  · unfold GetStdDeviation
    rw [if_neg he', if_pos hb]
  · unfold GetSkewness
    rw [if_neg he', if_pos hb]
  · unfold GetKurtosis
    rw [if_neg he', if_pos hb]

/-- The moments of an object with non-negative status, in the scale branch. -/
theorem moments_scale_branch (P : Provider F) (d : Gamma_Distribution F)
    (he : 0 ≤ d.error) (hb : ¬ d.Beta > 0) (ht : d.Theta > 0) :
    GetMean d = some (d.Alpha * d.Theta) ∧
    GetVariance P d = some (d.Alpha * P.pow d.Theta 2) ∧
    GetStdDeviation P d = some (P.sqrt (d.Alpha * P.pow d.Theta 2)) ∧
    GetSkewness P d = some (2 / P.sqrt d.Alpha) ∧
    GetKurtosis d = some (6 / d.Alpha) := by
  have he' : ¬ d.error < 0 := not_lt.mpr he
  refine ⟨?_, ?_, ?_, ?_, ?_⟩
  · unfold GetMean
    rw [if_neg he', if_neg hb, if_pos ht]
  · unfold GetVariance
    rw [if_neg he', if_neg hb, if_pos ht]
  · unfold GetStdDeviation
    rw [if_neg he', if_neg hb, if_pos ht]
  · unfold GetSkewness
    rw [if_neg he', if_neg hb, if_pos ht]
  · unfold GetKurtosis
    rw [if_neg he', if_neg hb, if_pos ht]

/-- `GetPDF` and `GetCDF` at `x > 0` in the rate branch. -/
theorem GetPDF_GetCDF_rate_branch (P : Provider F) (d : Gamma_Distribution F) (x : F)
    (he : 0 ≤ d.error) (hx : 0 < x) (hb : d.Beta > 0) :
    GetPDF P d x =
      (if d.Alpha ≤ P.Gamma_Function_Max_Arg then
        some (P.pow d.Beta d.Alpha * P.pow x (d.Alpha - 1) * P.exp (-d.Beta * x)
          / P.Gamma_Function d.Alpha)
      else
        some (P.exp ((d.Alpha - 1) * P.log x - x - P.Ln_Gamma_Function d.Alpha))) ∧
    GetCDF P d x =
      (if d.Alpha ≤ P.Gamma_Function_Max_Arg then
        some (P.Lower_Incomplete_Gamma_Function (x * d.Beta) d.Alpha
          / P.Gamma_Function d.Alpha)
      else
        some 1) := by
  constructor
  · rw [GetPDF_of_valid P d x he hx, if_pos hb]
  · rw [GetCDF_of_valid P d x he hx, if_pos hb]

/-- `GetPDF` and `GetCDF` at `x > 0` in the scale branch. -/
theorem GetPDF_GetCDF_scale_branch (P : Provider F) (d : Gamma_Distribution F) (x : F)
    (he : 0 ≤ d.error) (hx : 0 < x) (hb : ¬ d.Beta > 0) (ht : d.Theta > 0) :
    GetPDF P d x =
      (if d.Alpha ≤ P.Gamma_Function_Max_Arg then
        some (P.pow x (d.Alpha - 1) * P.exp (-x / d.Theta)
          / (P.pow d.Theta d.Alpha * P.Gamma_Function d.Alpha))
      else
        some (P.exp ((d.Alpha - 1) * P.log x - x - P.Ln_Gamma_Function d.Alpha))) ∧
    GetCDF P d x =
      (if d.Alpha ≤ P.Gamma_Function_Max_Arg then
        some (P.Lower_Incomplete_Gamma_Function (x / d.Theta) d.Alpha
          / P.Gamma_Function d.Alpha)
      else
        some 1) := by
  constructor
  · rw [GetPDF_of_valid P d x he hx, if_neg hb, if_pos ht]
  · rw [GetCDF_of_valid P d x he hx, if_neg hb, if_pos ht]

end Lemmas

/-! ### The real provider -/

section RealProvider

/-- The real provider at shape `1`: the incomplete integral is `1 - e^(-x)`. -/
theorem realMath_lower_incomplete_one (x : ℝ) :
    realMath.Lower_Incomplete_Gamma_Function x 1 = 1 - Real.exp (-x) := by
  show (∫ t in (0 : ℝ)..x, t ^ ((1 : ℝ) - 1) * Real.exp (-t)) = 1 - Real.exp (-x)
  have h : ∀ t : ℝ, t ^ ((1 : ℝ) - 1) * Real.exp (-t) = Real.exp (-t) := by
    intro t
    rw [sub_self, Real.rpow_zero, one_mul]
  simp only [h]
  rw [intervalIntegral.integral_comp_neg (fun t => Real.exp t), integral_exp]
  simp

/-- Seven-digit bounds on `e^(-1)`. -/
theorem exp_neg_one_bounds :
    (3678793 : ℝ) / 10000000 < Real.exp (-1) ∧ Real.exp (-1) < 3678795 / 10000000 := by
  have h1 := Real.exp_one_gt_d9
  have h2 := Real.exp_one_lt_d9
  have hpos : 0 < Real.exp 1 := Real.exp_pos 1
  rw [Real.exp_neg]
  constructor
  · rw [lt_inv_comm₀ (by norm_num) hpos]
    refine lt_trans h2 ?_
    norm_num
  · rw [inv_lt_comm₀ hpos (by norm_num)]
    refine lt_trans ?_ h1
    norm_num

/-- With shape `1` in the scale form the real provider gives the exponential
distribution function. -/
theorem GetCDF_realMath_shape_one_scale (θ x : ℝ) (hθ : 0 < θ) (hx : 0 < x) :
    GetCDF realMath (Gamma_Distribution.ctor 1 0 θ) x = some (1 - Real.exp (-(x / θ))) := by
  have he : (Gamma_Distribution.ctor (1 : ℝ) 0 θ).error = 1 :=
    (ctor_error_cases (1 : ℝ) 0 θ).2.2.2.1 one_pos le_rfl hθ
  unfold GetCDF
  rw [he, if_neg (by decide), if_neg (not_le.mpr hx)]
  show (if (0 : ℝ) > 0 then _ else if θ > 0 then
    (if (1 : ℝ) ≤ 171 then some (realMath.Lower_Incomplete_Gamma_Function (x / θ) 1 /
      Real.Gamma 1) else some 1) else none) = _
  rw [if_neg (lt_irrefl 0), if_pos hθ, if_pos (by norm_num), realMath_lower_incomplete_one,
    Real.Gamma_one, div_one]

/-- With shape `1` in the rate form the real provider gives the exponential
distribution function. -/
theorem GetCDF_realMath_shape_one_rate (β x : ℝ) (hβ : 0 < β) (hx : 0 < x) :
    GetCDF realMath (Gamma_Distribution.ctor 1 β 0) x = some (1 - Real.exp (-(x * β))) := by
  have he : (Gamma_Distribution.ctor (1 : ℝ) β 0).error = 1 :=
    (ctor_error_cases (1 : ℝ) β 0).2.2.1 one_pos hβ le_rfl
  unfold GetCDF
  rw [he, if_neg (by decide), if_neg (not_le.mpr hx)]
  show (if β > 0 then
    (if (1 : ℝ) ≤ 171 then some (realMath.Lower_Incomplete_Gamma_Function (x * β) 1 /
      Real.Gamma 1) else some 1) else _) = _
  rw [if_pos hβ, if_pos (by norm_num), realMath_lower_incomplete_one,
    Real.Gamma_one, div_one]

/-- The bisection for shape `1`, rate `2^70/100` and `p = 0.6321206`, entered after
`k` halvings towards `0`: it keeps halving towards `0` and is left at the 70th
midpoint `100/2^70`, where the error is within the tolerance. -/
theorem GetQuantile_loop_left_path :
    ∀ (j k : Nat), k + j = 69 →
      ∃ s, GetQuantile_loop realMath (Gamma_Distribution.ctor 1 (2 ^ 70 / 100) 0)
          (6321206 / 10000000) (100 / 2 ^ k) 0 k = some s ∧
        s.i = 70 ∧ s.Vm = 100 / 2 ^ 70 ∧ s.Pr = 1 - Real.exp (-1) ∧
        s.Eps = |s.Pr - 6321206 / 10000000| ∧ s.Eps ≤ CONSTANT_EpsStop := by
  have hrate : (0 : ℝ) < 2 ^ 70 / 100 := by positivity
  obtain ⟨hlo, hhi⟩ := exp_neg_one_bounds
  intro j
  induction j with
  | zero =>
    intro k hk
    have hk' : k = 69 := by omega
    subst hk'
    have hmid : ((100 : ℝ) / 2 ^ 69 + 0) / 2 * (2 ^ 70 / 100) = 1 := by norm_num
    have hc : GetCDF realMath (Gamma_Distribution.ctor 1 (2 ^ 70 / 100) 0)
        (((100 : ℝ) / 2 ^ 69 + 0) / 2) = some (1 - Real.exp (-1)) := by
      rw [GetCDF_realMath_shape_one_rate _ _ hrate (by positivity), hmid]
    have hstop : ¬ (|1 - Real.exp (-1) - 6321206 / 10000000| > CONSTANT_EpsStop ∧
        69 + 1 < 70) := fun h => absurd h.2 (by decide)
    refine ⟨_, GetQuantile_loop_stop realMath _ _ _ _ _ 69 hc hstop, rfl, ?_, rfl, rfl, ?_⟩
    · show ((100 : ℝ) / 2 ^ 69 + 0) / 2 = 100 / 2 ^ 70
      norm_num
    · show |1 - Real.exp (-1) - 6321206 / 10000000| ≤ (1 : ℝ) / 10000000
      rw [abs_le]
      constructor <;> linarith
  | succ j ih =>
    intro k hk
    have hpow : (2 : ℝ) ^ 70 = 2 ^ (k + 1) * 2 ^ (j + 1) := by
      rw [← pow_add]
      congr 1
      omega
    have h2k : (0 : ℝ) < 2 ^ k := by positivity
    have hmid : ((100 : ℝ) / 2 ^ k + 0) / 2 = 100 / 2 ^ (k + 1) := by
      rw [pow_succ]
      field_simp
    have harg : (100 : ℝ) / 2 ^ (k + 1) * (2 ^ 70 / 100) = 2 ^ (j + 1) := by
      rw [hpow]
      field_simp
      ring
    have hge : (2 : ℝ) ≤ 2 ^ (j + 1) := by
      calc (2 : ℝ) = 2 ^ 1 := (pow_one 2).symm
        _ ≤ 2 ^ (j + 1) := pow_le_pow_right₀ (by norm_num) (by omega)
    have hexp : Real.exp (-(2 : ℝ) ^ (j + 1)) ≤ Real.exp (-1) := by
      apply Real.exp_le_exp.mpr
      linarith
    have hexp2 : Real.exp (-(2 : ℝ) ^ (j + 1)) ≤ Real.exp (-1) * Real.exp (-1) := by
      rw [← Real.exp_add]
      apply Real.exp_le_exp.mpr
      linarith
    have hsq : Real.exp (-1) * Real.exp (-1) < 1 / 4 := by nlinarith
    have hc : GetCDF realMath (Gamma_Distribution.ctor 1 (2 ^ 70 / 100) 0)
        (((100 : ℝ) / 2 ^ k + 0) / 2) = some (1 - Real.exp (-(2 : ℝ) ^ (j + 1))) := by
      rw [hmid, GetCDF_realMath_shape_one_rate _ _ hrate (by positivity), harg]
    have hgt : 1 - Real.exp (-(2 : ℝ) ^ (j + 1)) > 6321206 / 10000000 := by
      show (6321206 : ℝ) / 10000000 < _
      linarith
    have hgo : |1 - Real.exp (-(2 : ℝ) ^ (j + 1)) - 6321206 / 10000000| > CONSTANT_EpsStop ∧
        k + 1 < 70 := by
      refine ⟨?_, by omega⟩
      show (1 : ℝ) / 10000000 < _
      rw [lt_abs]
      left
      linarith
    rw [GetQuantile_loop_continue realMath _ _ _ _ _ k hc hgo, if_pos hgt, if_pos hgt, hmid]
    exact ih (k + 1) (by omega)

/-- Status of the object built from `(0, 1, 0)`. -/
theorem ctor_error_zero_one_zero : (Gamma_Distribution.ctor (0 : ℝ) 1 0).error = -2 :=
  (ctor_error_cases (0 : ℝ) 1 0).1 le_rfl

/-- Status of the object built from `(2, 1, 0)`. -/
theorem ctor_error_two_one_zero : (Gamma_Distribution.ctor (2 : ℝ) 1 0).error = 1 :=
  (ctor_error_cases (2 : ℝ) 1 0).2.2.1 (by norm_num) one_pos le_rfl

/-- Status of the object built from `(200, 1, 0)`. -/
theorem ctor_error_large_shape : (Gamma_Distribution.ctor (200 : ℝ) 1 0).error = 1 :=
  ctor_error_rate_form (200 : ℝ) 1 0 (by norm_num) one_pos le_rfl

/-- With the real provider, shape `200`, rate `1` and `p = 0.99999999`, the loop is
left after its first execution, at the midpoint `50`. -/
theorem GetQuantile_loop_large_shape :
    ∃ s, GetQuantile_loop realMath (Gamma_Distribution.ctor 200 1 0) (99999999 / 100000000)
        100 0 0 = some s ∧ s.i = 1 ∧ s.Vm = 50 ∧ s.Pr = 1 := by
  have hv : 0 ≤ (Gamma_Distribution.ctor (200 : ℝ) 1 0).error := by
    rw [ctor_error_large_shape]
    decide
  have hc : GetCDF realMath (Gamma_Distribution.ctor 200 1 0) (((100 : ℝ) + 0) / 2)
      = some 1 := by
    rw [(GetPDF_GetCDF_rate_branch realMath _ _ hv (by norm_num) one_pos).2]
    show (if (200 : ℝ) ≤ 171 then _ else some 1) = _
    rw [if_neg (by norm_num)]
  have hstop : ¬ (|(1 : ℝ) - 99999999 / 100000000| > CONSTANT_EpsStop ∧ 0 + 1 < 70) := by
    rintro ⟨h, -⟩
    have h' : (1 : ℝ) / 10000000 < |(1 : ℝ) - 99999999 / 100000000| := h
    rw [abs_of_pos (by norm_num)] at h'
    norm_num at h'
  refine ⟨_, GetQuantile_loop_stop realMath _ _ 100 0 1 0 hc hstop, rfl, ?_, rfl⟩
  show ((100 : ℝ) + 0) / 2 = 50
  norm_num

/-- The real `pow` of a reciprocal is the reciprocal of the `pow`. -/
theorem realMath_pow_one_div (b s : ℝ) (hb : 0 ≤ b) :
    realMath.pow (1 / b) s = 1 / realMath.pow b s := by
  show (1 / b) ^ s = 1 / b ^ s
  rw [one_div, one_div, Real.inv_rpow hb]

/-- The real incomplete integral at shape `1` is non-negative on the positive reals. -/
theorem realMath_lower_incomplete_one_nonneg (u : ℝ) (hu : 0 < u) :
    0 ≤ realMath.Lower_Incomplete_Gamma_Function u 1 := by
  rw [realMath_lower_incomplete_one]
  have h : Real.exp (-u) ≤ 1 := Real.exp_le_one_iff.mpr (by linarith)
  linarith

/-- The real incomplete integral at shape `1` is non-decreasing. -/
theorem realMath_lower_incomplete_one_mono (u v : ℝ) (huv : u ≤ v) :
    realMath.Lower_Incomplete_Gamma_Function u 1 ≤
      realMath.Lower_Incomplete_Gamma_Function v 1 := by
  rw [realMath_lower_incomplete_one, realMath_lower_incomplete_one]
  have h : Real.exp (-v) ≤ Real.exp (-u) := Real.exp_le_exp.mpr (by linarith)
  linarith

end RealProvider

/-! ## Construction and the status channel -/

section Status

variable {F : Type} [LinearOrderedField F]

/-- C1. For every triple (shape, rate, scale) the status stored by the constructor is
`-2` when `shape <= 0`; otherwise `-3` when `rate > 0` and `scale > 0`; otherwise `1`
when exactly one of `rate > 0`, `scale > 0` holds; otherwise `-4`.  The status is
therefore one of `1, -2, -3, -4`, the three invalid codes are pairwise distinct, and
the status is non-negative exactly when `shape > 0` and exactly one of rate and
scale is positive. -/
theorem ctor_status_decision (shape rate scale : F) :
    (Gamma_Distribution.ctor shape rate scale).error =
        (if shape ≤ 0 then -2
         else if 0 < rate ∧ 0 < scale then -3
         else if (0 < rate ∧ ¬ 0 < scale) ∨ (¬ 0 < rate ∧ 0 < scale) then 1
         else -4) ∧
      ((Gamma_Distribution.ctor shape rate scale).error = 1 ∨
        (Gamma_Distribution.ctor shape rate scale).error = -2 ∨
        (Gamma_Distribution.ctor shape rate scale).error = -3 ∨
        (Gamma_Distribution.ctor shape rate scale).error = -4) ∧
      ((-2 : Int) ≠ -3 ∧ (-2 : Int) ≠ -4 ∧ (-3 : Int) ≠ -4) ∧
      (0 ≤ (Gamma_Distribution.ctor shape rate scale).error ↔
        0 < shape ∧ ((0 < rate ∧ ¬ 0 < scale) ∨ (¬ 0 < rate ∧ 0 < scale))) := by
  refine ⟨?_, ctor_error_mem shape rate scale, by decide,
    ctor_error_nonneg_iff shape rate scale⟩
  obtain ⟨h2, h3, h1, h1', h4⟩ := ctor_error_cases shape rate scale
  show Gamma_Distribution.ctor_error shape rate scale = _
  rcases le_or_lt shape 0 with ha | ha
  · rw [h2 ha, if_pos ha]
  · rw [if_neg (not_le.mpr ha)]
    rcases lt_or_le 0 rate with hb | hb <;> rcases lt_or_le 0 scale with ht | ht
    · rw [h3 ha hb ht, if_pos ⟨hb, ht⟩]
    · rw [h1 ha hb ht, if_neg (fun h => absurd h.2 (not_lt.mpr ht)),
        if_pos (Or.inl ⟨hb, not_lt.mpr ht⟩)]
    · rw [h1' ha hb ht, if_neg (fun h => absurd h.1 (not_lt.mpr hb)),
        if_pos (Or.inr ⟨not_lt.mpr hb, ht⟩)]
    · rw [h4 ha hb ht, if_neg (fun h => absurd h.1 (not_lt.mpr hb)), if_neg]
      rintro (⟨h, -⟩ | ⟨-, h⟩)
      · exact absurd h (not_lt.mpr hb)
      · exact absurd h (not_lt.mpr ht)

/-- C2. When the status stored by the constructor is negative, each of `GetPDF(x)`,
`GetCDF(x)` (for every `x`, also `x <= 0`), `GetMean()`, `GetVariance()`,
`GetStdDeviation()`, `GetSkewness()` and `GetKurtosis()` returns that status, which is
`-2`, `-3` or `-4`, whatever the external functions are. -/
theorem invalid_queries_return_status (P : Provider F) (shape rate scale x : F)
    (h : (Gamma_Distribution.ctor shape rate scale).error < 0) :
    ((Gamma_Distribution.ctor shape rate scale).error = -2 ∨
      (Gamma_Distribution.ctor shape rate scale).error = -3 ∨
      (Gamma_Distribution.ctor shape rate scale).error = -4) ∧
    GetPDF P (Gamma_Distribution.ctor shape rate scale) x =
      some (((Gamma_Distribution.ctor shape rate scale).error : Int) : F) ∧
    GetCDF P (Gamma_Distribution.ctor shape rate scale) x =
      some (((Gamma_Distribution.ctor shape rate scale).error : Int) : F) ∧
    GetMean (Gamma_Distribution.ctor shape rate scale) =
      some (((Gamma_Distribution.ctor shape rate scale).error : Int) : F) ∧
    GetVariance P (Gamma_Distribution.ctor shape rate scale) =
      some (((Gamma_Distribution.ctor shape rate scale).error : Int) : F) ∧
    GetStdDeviation P (Gamma_Distribution.ctor shape rate scale) =
      some (((Gamma_Distribution.ctor shape rate scale).error : Int) : F) ∧
    GetSkewness P (Gamma_Distribution.ctor shape rate scale) =
      some (((Gamma_Distribution.ctor shape rate scale).error : Int) : F) ∧
    GetKurtosis (Gamma_Distribution.ctor shape rate scale) =
      some (((Gamma_Distribution.ctor shape rate scale).error : Int) : F) := by
  refine ⟨?_, ?_, ?_, ?_, ?_, ?_, ?_, ?_⟩
  · rcases ctor_error_mem shape rate scale with h1 | h2 | h3 | h4
    · have h' : Gamma_Distribution.ctor_error shape rate scale < 0 := h
      rw [h1] at h'
      exact absurd h' (by decide)
    · exact Or.inl h2
    · exact Or.inr (Or.inl h3)
    · exact Or.inr (Or.inr h4)
  · simp only [GetPDF, if_pos h]
  · simp only [GetCDF, if_pos h]
  · simp only [GetMean, if_pos h]
  · simp only [GetVariance, if_pos h]
  · simp only [GetStdDeviation, if_pos h]
  · simp only [GetSkewness, if_pos h]
  · simp only [GetKurtosis, if_pos h]

/-- C2 at shape `0`, rate `1`, scale `0` over the real provider: the status is `-2` and
every query returns `-2`. -/
theorem invalid_queries_return_status_witness :
    (Gamma_Distribution.ctor (0 : ℝ) 1 0).error < 0 ∧
    GetPDF realMath (Gamma_Distribution.ctor 0 1 0) 1 = some (-2) ∧
    GetCDF realMath (Gamma_Distribution.ctor 0 1 0) 1 = some (-2) ∧
    GetMean (Gamma_Distribution.ctor (0 : ℝ) 1 0) = some (-2) ∧
    GetVariance realMath (Gamma_Distribution.ctor 0 1 0) = some (-2) ∧
    GetStdDeviation realMath (Gamma_Distribution.ctor 0 1 0) = some (-2) ∧
    GetSkewness realMath (Gamma_Distribution.ctor 0 1 0) = some (-2) ∧
    GetKurtosis (Gamma_Distribution.ctor (0 : ℝ) 1 0) = some (-2) := by
  have hneg : (Gamma_Distribution.ctor (0 : ℝ) 1 0).error < 0 := by
    rw [ctor_error_zero_one_zero]
    decide
  have h := invalid_queries_return_status realMath 0 1 0 1 hneg
  rw [ctor_error_zero_one_zero] at h
  have hcast : (((-2 : Int) : ℝ)) = -2 := by norm_num
  rw [hcast] at h
  exact ⟨hneg, h.2⟩

end Status

/-! ## The quantile solver -/

section Quantile

variable {F : Type} [LinearOrderedField F]

/-- C3 fails as stated: shape `1`, scale `1000` is a valid object whose median lies
above the search ceiling `100`; for `p = 1/2` the bisection never meets the tolerance,
`GetQuantile` returns `-9999`, and `GetCDF(-9999)` is `0`, at distance `1/2` from `p`. -/
theorem roundtrip_counterexample :
    0 ≤ (Gamma_Distribution.ctor (1 : ℝ) 0 1000).error ∧ (0 : ℝ) < 1 / 2 ∧ (1 / 2 : ℝ) < 1 ∧
    GetQuantile realMath (Gamma_Distribution.ctor 1 0 1000) (1 / 2) = some (-9999) ∧
    GetCDF realMath (Gamma_Distribution.ctor 1 0 1000) (-9999) = some 0 ∧
    ¬ (|(0 : ℝ) - 1 / 2| ≤ 1 / 1000000) := by
  have he : (Gamma_Distribution.ctor (1 : ℝ) 0 1000).error = 1 :=
    (ctor_error_cases (1 : ℝ) 0 1000).2.2.2.1 one_pos le_rfl (by norm_num)
  have hfar : ∀ x : ℝ, 0 < x → x < 100 →
      ∃ c, GetCDF realMath (Gamma_Distribution.ctor 1 0 1000) x = some c ∧
        |c - 1 / 2| > CONSTANT_EpsStop := by
    intro x hx0 hx1
    refine ⟨_, GetCDF_realMath_shape_one_scale 1000 x (by norm_num) hx0, ?_⟩
    have hexp : -(x / 1000) + 1 ≤ Real.exp (-(x / 1000)) := Real.add_one_le_exp _
    show (1 : ℝ) / 10000000 < _
    rw [lt_abs]
    right
    linarith
  obtain ⟨s, hs, hi⟩ := GetQuantile_loop_exhausts realMath _ (1 / 2) hfar 70 0 100 0 rfl
    (by decide) le_rfl (by norm_num) le_rfl
  refine ⟨by rw [he]; decide, by norm_num, by norm_num, ?_, ?_, ?_⟩
  · rw [GetQuantile_of_loop realMath _ (1 / 2) (by norm_num) (by norm_num) s hs,
      if_pos (by omega)]
  · unfold GetCDF
    rw [he, if_neg (by decide), if_pos (by norm_num)]
  · rw [abs_sub_comm, sub_zero, abs_of_pos (by norm_num : (0 : ℝ) < 1 / 2)]
    norm_num

/-- C3, amended. For every validly constructed object and every `p` with `0 < p < 1`,
`GetQuantile(p)` returns a value, and whenever that value is not the sentinel `-9999`,
`GetCDF(GetQuantile(p))` differs from `p` by at most `1e-6`. -/
theorem roundtrip_when_converged (P : Provider F)
    (shape rate scale p : F)
    (_hv : 0 ≤ (Gamma_Distribution.ctor shape rate scale).error) (hp0 : 0 < p) (hp1 : p < 1) :
    ∃ r, GetQuantile P (Gamma_Distribution.ctor shape rate scale) p = some r ∧
      (r ≠ -9999 → ∃ c, GetCDF P (Gamma_Distribution.ctor shape rate scale) r = some c ∧
        |c - p| ≤ 1 / 1000000) := by
  obtain ⟨s, hs⟩ := GetQuantile_loop_isSome P (Gamma_Distribution.ctor shape rate scale) p
    (GetCDF_ctor_defined P shape rate scale) 70 0 100 0 rfl
  obtain ⟨-, hPr, hEps, hexit⟩ := GetQuantile_loop_exit P _ p 70 0 100 0 s rfl hs
  rw [GetQuantile_of_loop P _ p hp0 hp1 s hs]
  by_cases hi : s.i ≥ 70
  · rw [if_pos hi]
    exact ⟨_, rfl, fun h => absurd rfl h⟩
  · rw [if_neg hi]
    refine ⟨_, rfl, fun _ => ⟨s.Pr, hPr, ?_⟩⟩
    have h1 : s.Eps ≤ CONSTANT_EpsStop := by
      by_contra hcon
      exact hexit ⟨not_le.mp hcon, not_le.mp hi⟩
    rw [hEps] at h1
    refine le_trans h1 ?_
    unfold CONSTANT_EpsStop
    norm_num

/-- C3, amended, at shape `200`, rate `1`, scale `0` and `p = 0.99999999` over the real
provider: the first midpoint `50` meets the tolerance, `GetQuantile` returns `50`, and
`GetCDF(50)` is within `1e-6` of `p`. -/
theorem roundtrip_when_converged_witness :
    0 ≤ (Gamma_Distribution.ctor (200 : ℝ) 1 0).error ∧
    (0 : ℝ) < 99999999 / 100000000 ∧ (99999999 / 100000000 : ℝ) < 1 ∧
    GetQuantile realMath (Gamma_Distribution.ctor 200 1 0) (99999999 / 100000000) = some 50 ∧
    ∃ c, GetCDF realMath (Gamma_Distribution.ctor 200 1 0) 50 = some c ∧
      |c - 99999999 / 100000000| ≤ 1 / 1000000 := by
  have he : (Gamma_Distribution.ctor (200 : ℝ) 1 0).error = 1 :=
    (ctor_error_cases (200 : ℝ) 1 0).2.2.1 (by norm_num) one_pos le_rfl
  have hv : 0 ≤ (Gamma_Distribution.ctor (200 : ℝ) 1 0).error := by
    rw [he]
    decide
  have hc : GetCDF realMath (Gamma_Distribution.ctor 200 1 0) (((100 : ℝ) + 0) / 2) = some 1 := by
    rw [GetCDF_of_valid realMath _ _ hv (by norm_num)]
    show (if (1 : ℝ) > 0 then (if (200 : ℝ) ≤ 171 then _ else some 1) else _) = _
    rw [if_pos one_pos, if_neg (by norm_num)]
  have hstop : ¬ (|(1 : ℝ) - 99999999 / 100000000| > CONSTANT_EpsStop ∧ 0 + 1 < 70) := by
    rintro ⟨h, -⟩
    have h' : (1 : ℝ) / 10000000 < |(1 : ℝ) - 99999999 / 100000000| := h
    rw [abs_of_pos (by norm_num)] at h'
    norm_num at h'
  have hloop := GetQuantile_loop_stop realMath (Gamma_Distribution.ctor 200 1 0)
    (99999999 / 100000000) 100 0 1 0 hc hstop
  have hq : GetQuantile realMath (Gamma_Distribution.ctor 200 1 0) (99999999 / 100000000)
      = some 50 := by
    rw [GetQuantile_of_loop realMath _ _ (by norm_num) (by norm_num) _ hloop,
      if_neg (by decide)]
    show some (((100 : ℝ) + 0) / 2) = some 50
    norm_num
  obtain ⟨r, hr, h⟩ := roundtrip_when_converged realMath 200 1 0 (99999999 / 100000000) hv
    (by norm_num) (by norm_num)
  rw [hq] at hr
  cases hr
  exact ⟨hv, by norm_num, by norm_num, hq, h (by norm_num)⟩

/-- C4, evaluated at a failing input. With the real provider, shape `1`, rate
`2^70/100`, scale `0` and `p = 0.6321206`, the bisection reaches the tolerance exactly
at its 70th midpoint (`Eps <= CONSTANT_EpsStop` with `i == 70`), and `GetQuantile`
still returns the sentinel `-9999`: the final test looks at `i` only. -/
theorem quantile_sentinel_with_tolerance_met :
    (0 : ℝ) < 6321206 / 10000000 ∧ (6321206 / 10000000 : ℝ) < 1 ∧
    GetQuantile realMath (Gamma_Distribution.ctor 1 (2 ^ 70 / 100) 0) (6321206 / 10000000)
      = some (-9999) ∧
    ∃ s, GetQuantile_loop realMath (Gamma_Distribution.ctor 1 (2 ^ 70 / 100) 0)
        (6321206 / 10000000) 100 0 0 = some s ∧
      s.i = 70 ∧
      GetCDF realMath (Gamma_Distribution.ctor 1 (2 ^ 70 / 100) 0) s.Vm = some s.Pr ∧
      s.Eps = |s.Pr - 6321206 / 10000000| ∧
      s.Eps ≤ CONSTANT_EpsStop := by
  obtain ⟨s, hs, hi, hVm, hPr, hEps, hle⟩ := GetQuantile_loop_left_path 69 0 rfl
  rw [pow_zero, div_one] at hs
  obtain ⟨-, hcdf, -, -⟩ := GetQuantile_loop_exit realMath _ _ 70 0 100 0 s rfl hs
  refine ⟨by norm_num, by norm_num, ?_, s, hs, hi, hcdf, hEps, hle⟩
  rw [GetQuantile_of_loop realMath _ _ (by norm_num) (by norm_num) s hs, if_pos (by omega)]

/-- C5. For every object, valid or not, and whatever the external functions are,
`GetQuantile(p)` returns `0` for every `p <= 0` and `100` for every `p >= 1`; in
particular `GetQuantile(0) == 0` and `GetQuantile(1) == 100`. -/
theorem quantile_boundary (P : Provider F) (d : Gamma_Distribution F) (p : F) :
    (p ≤ 0 → GetQuantile P d p = some 0) ∧ (p ≥ 1 → GetQuantile P d p = some 100) ∧
    GetQuantile P d 0 = some 0 ∧ GetQuantile P d 1 = some 100 := by
  have h0 : ∀ q : F, q ≤ 0 → GetQuantile P d q = some 0 := by
    intro q hq
    unfold GetQuantile
    rw [if_pos hq]
  have h1 : ∀ q : F, q ≥ 1 → GetQuantile P d q = some 100 := by
    intro q hq
    have hq' : ¬ q ≤ 0 := not_le.mpr (lt_of_lt_of_le one_pos hq)
    unfold GetQuantile
    rw [if_neg hq', if_pos hq]
  exact ⟨h0 p, h1 p, h0 0 le_rfl, h1 1 le_rfl⟩

/-- C5 at `p = -3` on a valid object and at `p = 2` on an invalid one. -/
theorem quantile_boundary_witness :
    GetQuantile realMath (Gamma_Distribution.ctor 2 1 0) (-3) = some 0 ∧
    GetQuantile realMath (Gamma_Distribution.ctor 0 0 0) 2 = some 100 :=
  ⟨(quantile_boundary realMath (Gamma_Distribution.ctor 2 1 0) (-3)).1 (by norm_num),
   (quantile_boundary realMath (Gamma_Distribution.ctor 0 0 0) 2).2.1 (by norm_num)⟩

end Quantile

/-! ## Density, distribution function and moments -/

section Queries

variable {F : Type} [LinearOrderedField F]

/-- C6. For every validly constructed object and every `x <= 0`, `GetPDF(x)` and
`GetCDF(x)` both return `0`, in either parameterization and for every shape, below
or above `Gamma_Function_Max_Arg()`. -/
theorem zero_at_nonpositive (P : Provider F) (shape rate scale x : F)
    (hv : 0 ≤ (Gamma_Distribution.ctor shape rate scale).error) (hx : x ≤ 0) :
    GetPDF P (Gamma_Distribution.ctor shape rate scale) x = some 0 ∧
    GetCDF P (Gamma_Distribution.ctor shape rate scale) x = some 0 := by
  constructor
  · unfold GetPDF
    rw [if_neg (not_lt.mpr hv), if_pos hx]
  · unfold GetCDF
    rw [if_neg (not_lt.mpr hv), if_pos hx]

/-- C6 at shape `2`, rate `1`, scale `0` and `x = -1` over the real provider. -/
theorem zero_at_nonpositive_witness :
    0 ≤ (Gamma_Distribution.ctor (2 : ℝ) 1 0).error ∧ (-1 : ℝ) ≤ 0 ∧
    GetPDF realMath (Gamma_Distribution.ctor 2 1 0) (-1) = some 0 ∧
    GetCDF realMath (Gamma_Distribution.ctor 2 1 0) (-1) = some 0 :=
  have hv : 0 ≤ (Gamma_Distribution.ctor (2 : ℝ) 1 0).error := by
    rw [ctor_error_two_one_zero]
    decide
  ⟨hv, by norm_num, zero_at_nonpositive realMath 2 1 0 (-1) hv (by norm_num)⟩

/-- C7 fails as stated: with the real provider, shape `171` equal to the threshold, rate
`2`, scale `0` and `x = 1`, the shape is not below the threshold, yet `GetPDF(1)` is the
closed form `2^171 * e^(-2) / Gamma(171)`, which is not the log-space value
`exp(170*log(1) - 1 - lnGamma(171)) = e^(-1) / Gamma(171)`. -/
theorem pdf_at_threshold_counterexample :
    0 ≤ (Gamma_Distribution.ctor (171 : ℝ) 2 0).error ∧ (0 : ℝ) < 1 ∧
    ¬ ((171 : ℝ) < realMath.Gamma_Function_Max_Arg) ∧
    GetPDF realMath (Gamma_Distribution.ctor 171 2 0) 1 ≠
      some (realMath.exp ((171 - 1) * realMath.log 1 - 1 - realMath.Ln_Gamma_Function 171)) := by
  have he : (Gamma_Distribution.ctor (171 : ℝ) 2 0).error = 1 :=
    (ctor_error_cases (171 : ℝ) 2 0).2.2.1 (by norm_num) (by norm_num) le_rfl
  have hv : 0 ≤ (Gamma_Distribution.ctor (171 : ℝ) 2 0).error := by
    rw [he]
    decide
  have hG : 0 < Real.Gamma 171 := Real.Gamma_pos_of_pos (by norm_num)
  have hpdf : GetPDF realMath (Gamma_Distribution.ctor 171 2 0) 1 =
      some ((2 : ℝ) ^ (171 : ℝ) * (1 : ℝ) ^ ((171 : ℝ) - 1) * Real.exp (-2 * 1)
        / Real.Gamma 171) := by
    rw [GetPDF_of_valid realMath _ _ hv one_pos]
    show (if (2 : ℝ) > 0 then (if (171 : ℝ) ≤ 171 then _ else _) else _) = _
    rw [if_pos (by norm_num), if_pos le_rfl]
    rfl
  have hlog : realMath.exp ((171 - 1) * realMath.log 1 - 1 - realMath.Ln_Gamma_Function 171)
      = Real.exp (-1) / Real.Gamma 171 := by
    show Real.exp ((171 - 1) * Real.log 1 - 1 - Real.log (Real.Gamma 171)) = _
    rw [Real.log_one, mul_zero, zero_sub, Real.exp_sub, Real.exp_log hG]
  have hbig : Real.exp (-1) < (2 : ℝ) ^ (171 : ℝ) * (1 : ℝ) ^ ((171 : ℝ) - 1) * Real.exp (-2 * 1) := by
    have h2 : (2 : ℝ) ^ (171 : ℝ) = 2 ^ (171 : ℕ) := by
      rw [← Real.rpow_natCast]
      norm_num
    have h3 : Real.exp (-1) = Real.exp 1 * Real.exp (-2 * 1) := by
      rw [← Real.exp_add]
      norm_num
    rw [Real.one_rpow, mul_one, h2, h3]
    apply mul_lt_mul_of_pos_right _ (Real.exp_pos _)
    have := Real.exp_one_lt_d9
    have h4 : (3 : ℝ) < 2 ^ (171 : ℕ) := by norm_num
    linarith
  refine ⟨hv, one_pos, by show ¬ ((171 : ℝ) < 171); exact lt_irrefl _, ?_⟩
  rw [hpdf, hlog]
  intro h
  have h' := Option.some.inj h
  have h'' := div_lt_div_of_pos_right hbig hG
  linarith

/-- C7, amended. For every validly constructed object and every `x > 0`: when
`shape <= Gamma_Function_Max_Arg()` (the threshold included), `GetPDF(x)` is
`pow(rate,shape) * pow(x,shape-1) * exp(-rate*x) / Gamma_Function(shape)` in the rate
form and `pow(x,shape-1) * exp(-x/scale) / (pow(scale,shape) * Gamma_Function(shape))`
in the scale form; when `shape > Gamma_Function_Max_Arg()`, it is
`exp((shape-1)*log(x) - x - Ln_Gamma_Function(shape))` in both forms. -/
theorem pdf_closed_and_log_forms (P : Provider F) (shape rate scale x : F)
    (hv : 0 ≤ (Gamma_Distribution.ctor shape rate scale).error) (hx : 0 < x) :
    (0 < rate → shape ≤ P.Gamma_Function_Max_Arg →
      GetPDF P (Gamma_Distribution.ctor shape rate scale) x =
        some (P.pow rate shape * P.pow x (shape - 1) * P.exp (-rate * x)
          / P.Gamma_Function shape)) ∧
    (0 < scale → shape ≤ P.Gamma_Function_Max_Arg →
      GetPDF P (Gamma_Distribution.ctor shape rate scale) x =
        some (P.pow x (shape - 1) * P.exp (-x / scale)
          / (P.pow scale shape * P.Gamma_Function shape))) ∧
    (P.Gamma_Function_Max_Arg < shape →
      GetPDF P (Gamma_Distribution.ctor shape rate scale) x =
        some (P.exp ((shape - 1) * P.log x - x - P.Ln_Gamma_Function shape))) := by
  obtain ⟨-, hbt⟩ := ctor_valid_params shape rate scale hv
  have hpdf := GetPDF_of_valid P (Gamma_Distribution.ctor shape rate scale) x hv hx
  change GetPDF P (Gamma_Distribution.ctor shape rate scale) x =
    if rate > 0 then
      if shape ≤ P.Gamma_Function_Max_Arg then _ else _
    else if scale > 0 then
      if shape ≤ P.Gamma_Function_Max_Arg then _ else _
    else none at hpdf
  refine ⟨?_, ?_, ?_⟩
  · intro hb hs
    rw [hpdf, if_pos hb, if_pos hs]
    rfl
  · intro ht hs
    have hb : ¬ rate > 0 := by
      rcases hbt with h | h
      · exact absurd ht h.2
      · exact h.1
    rw [hpdf, if_neg hb, if_pos ht, if_pos hs]
    rfl
  · intro hs
    rcases hbt with h | h
    · rw [hpdf, if_pos h.1, if_neg (not_le.mpr hs)]
      rfl
    · rw [hpdf, if_neg h.1, if_pos h.2, if_neg (not_le.mpr hs)]
      rfl

/-- C7, amended, at shape `2`, rate `1`, scale `0` over the real provider, where
`Gamma(2) = 1`: `GetPDF(2)` is `2 * e^(-2)`. -/
theorem pdf_closed_and_log_forms_witness :
    0 ≤ (Gamma_Distribution.ctor (2 : ℝ) 1 0).error ∧ (0 : ℝ) < 2 ∧
    GetPDF realMath (Gamma_Distribution.ctor 2 1 0) 2 = some (2 * Real.exp (-2)) := by
  have hv : 0 ≤ (Gamma_Distribution.ctor (2 : ℝ) 1 0).error := by
    rw [ctor_error_two_one_zero]
    decide
  have h := (pdf_closed_and_log_forms realMath 2 1 0 2 hv (by norm_num)).1 one_pos
    (by show (2 : ℝ) ≤ 171; norm_num)
  refine ⟨hv, by norm_num, ?_⟩
  rw [h]
  show some ((1 : ℝ) ^ (2 : ℝ) * (2 : ℝ) ^ ((2 : ℝ) - 1) * Real.exp (-1 * 2) / Real.Gamma 2) = _
  have h1 : ((2 : ℝ) - 1) = 1 := by norm_num
  rw [Real.one_rpow, h1, Real.rpow_one, Real.Gamma_two, div_one, one_mul]
  norm_num

/-- C8. For every validly constructed object and every `x > 0`: when shape is below
`Gamma_Function_Max_Arg()`, `GetCDF(x)` is
`Lower_Incomplete_Gamma_Function(x*rate, shape) / Gamma_Function(shape)` in the rate
form and `Lower_Incomplete_Gamma_Function(x/scale, shape) / Gamma_Function(shape)` in
the scale form; when shape is above the threshold, `GetCDF(x)` is exactly `1`. -/
theorem cdf_forms (P : Provider F) (shape rate scale x : F)
    (hv : 0 ≤ (Gamma_Distribution.ctor shape rate scale).error) (hx : 0 < x) :
    (shape < P.Gamma_Function_Max_Arg → 0 < rate →
      GetCDF P (Gamma_Distribution.ctor shape rate scale) x =
        some (P.Lower_Incomplete_Gamma_Function (x * rate) shape / P.Gamma_Function shape)) ∧
    (shape < P.Gamma_Function_Max_Arg → 0 < scale →
      GetCDF P (Gamma_Distribution.ctor shape rate scale) x =
        some (P.Lower_Incomplete_Gamma_Function (x / scale) shape / P.Gamma_Function shape)) ∧
    (P.Gamma_Function_Max_Arg < shape →
      GetCDF P (Gamma_Distribution.ctor shape rate scale) x = some 1) := by
  obtain ⟨-, hbt⟩ := ctor_valid_params shape rate scale hv
  have hcdf := GetCDF_of_valid P (Gamma_Distribution.ctor shape rate scale) x hv hx
  change GetCDF P (Gamma_Distribution.ctor shape rate scale) x =
    if rate > 0 then
      if shape ≤ P.Gamma_Function_Max_Arg then _ else _
    else if scale > 0 then
      if shape ≤ P.Gamma_Function_Max_Arg then _ else _
    else none at hcdf
  refine ⟨?_, ?_, ?_⟩
  · intro hs hb
    rw [hcdf, if_pos hb, if_pos (le_of_lt hs)]
    rfl
  · intro hs ht
    have hb : ¬ rate > 0 := by
      rcases hbt with h | h
      · exact absurd ht h.2
      · exact h.1
    rw [hcdf, if_neg hb, if_pos ht, if_pos (le_of_lt hs)]
    rfl
  · intro hs
    rcases hbt with h | h
    · rw [hcdf, if_pos h.1, if_neg (not_le.mpr hs)]
    · rw [hcdf, if_neg h.1, if_pos h.2, if_neg (not_le.mpr hs)]

/-- C8 at shape `1`, rate `1`, scale `0` and `x = 1` over the real provider: `GetCDF(1)`
is `1 - e^(-1)`. -/
theorem cdf_forms_witness :
    0 ≤ (Gamma_Distribution.ctor (1 : ℝ) 1 0).error ∧ (0 : ℝ) < 1 ∧
    GetCDF realMath (Gamma_Distribution.ctor 1 1 0) 1 = some (1 - Real.exp (-1)) := by
  have he : (Gamma_Distribution.ctor (1 : ℝ) 1 0).error = 1 :=
    (ctor_error_cases (1 : ℝ) 1 0).2.2.1 one_pos one_pos le_rfl
  have hv : 0 ≤ (Gamma_Distribution.ctor (1 : ℝ) 1 0).error := by
    rw [he]
    decide
  have h := (cdf_forms realMath 1 1 0 1 hv one_pos).1 (by show (1 : ℝ) < 171; norm_num) one_pos
  refine ⟨hv, one_pos, ?_⟩
  rw [h, realMath_lower_incomplete_one]
  show some ((1 - Real.exp (-(1 * 1))) / Real.Gamma 1) = _
  rw [Real.Gamma_one, div_one, mul_one]

/-- C10. Any two validly constructed objects with the same shape, whatever their rate
and scale and whichever parameterization each uses, have `GetSkewness()` equal to
`2/sqrt(shape)` and `GetKurtosis()` equal to `6/shape`, hence equal skewness and equal
kurtosis. -/
theorem skewness_kurtosis_shape_only (P : Provider F) (shape rate₁ scale₁ rate₂ scale₂ : F)
    (hv₁ : 0 ≤ (Gamma_Distribution.ctor shape rate₁ scale₁).error)
    (hv₂ : 0 ≤ (Gamma_Distribution.ctor shape rate₂ scale₂).error) :
    GetSkewness P (Gamma_Distribution.ctor shape rate₁ scale₁) = some (2 / P.sqrt shape) ∧
    GetSkewness P (Gamma_Distribution.ctor shape rate₂ scale₂) = some (2 / P.sqrt shape) ∧
    GetKurtosis (Gamma_Distribution.ctor shape rate₁ scale₁) = some (6 / shape) ∧
    GetKurtosis (Gamma_Distribution.ctor shape rate₂ scale₂) = some (6 / shape) ∧
    GetSkewness P (Gamma_Distribution.ctor shape rate₁ scale₁) =
      GetSkewness P (Gamma_Distribution.ctor shape rate₂ scale₂) ∧
    GetKurtosis (Gamma_Distribution.ctor shape rate₁ scale₁) =
      GetKurtosis (Gamma_Distribution.ctor shape rate₂ scale₂) := by
  have hs : ∀ b t : F, 0 ≤ (Gamma_Distribution.ctor shape b t).error →
      GetSkewness P (Gamma_Distribution.ctor shape b t) = some (2 / P.sqrt shape) := by
    intro b t hv
    obtain ⟨-, hbt⟩ := ctor_valid_params shape b t hv
    have h : GetSkewness P (Gamma_Distribution.ctor shape b t) =
        if b > 0 then some (2 / P.sqrt shape)
        else if t > 0 then some (2 / P.sqrt shape) else none := by
      unfold GetSkewness
      rw [if_neg (not_lt.mpr hv)]
      rfl
    rcases hbt with h' | h'
    · rw [h, if_pos h'.1]
    · rw [h, if_neg h'.1, if_pos h'.2]
  have hk : ∀ b t : F, 0 ≤ (Gamma_Distribution.ctor shape b t).error →
      GetKurtosis (Gamma_Distribution.ctor shape b t) = some (6 / shape) := by
    intro b t hv
    obtain ⟨-, hbt⟩ := ctor_valid_params shape b t hv
    have h : GetKurtosis (Gamma_Distribution.ctor shape b t) =
        if b > 0 then some (6 / shape)
        else if t > 0 then some (6 / shape) else none := by
      unfold GetKurtosis
      rw [if_neg (not_lt.mpr hv)]
      rfl
    rcases hbt with h' | h'
    · rw [h, if_pos h'.1]
    · rw [h, if_neg h'.1, if_pos h'.2]
  refine ⟨hs _ _ hv₁, hs _ _ hv₂, hk _ _ hv₁, hk _ _ hv₂, ?_, ?_⟩
  · rw [hs _ _ hv₁, hs _ _ hv₂]
  · rw [hk _ _ hv₁, hk _ _ hv₂]

/-- C10 at (shape `2`, rate `3`, scale `0`) and (shape `2`, rate `0`, scale `0.2`) over
the real provider: both have skewness `sqrt(2)` and kurtosis `3`. -/
theorem skewness_kurtosis_shape_only_witness :
    0 ≤ (Gamma_Distribution.ctor (2 : ℝ) 3 0).error ∧
    0 ≤ (Gamma_Distribution.ctor (2 : ℝ) 0 (1 / 5)).error ∧
    GetSkewness realMath (Gamma_Distribution.ctor 2 3 0) = some (Real.sqrt 2) ∧
    GetSkewness realMath (Gamma_Distribution.ctor 2 0 (1 / 5)) = some (Real.sqrt 2) ∧
    GetKurtosis (Gamma_Distribution.ctor (2 : ℝ) 3 0) = some 3 ∧
    GetKurtosis (Gamma_Distribution.ctor (2 : ℝ) 0 (1 / 5)) = some 3 := by
  have he1 : (Gamma_Distribution.ctor (2 : ℝ) 3 0).error = 1 :=
    (ctor_error_cases (2 : ℝ) 3 0).2.2.1 (by norm_num) (by norm_num) le_rfl
  have he2 : (Gamma_Distribution.ctor (2 : ℝ) 0 (1 / 5)).error = 1 :=
    (ctor_error_cases (2 : ℝ) 0 (1 / 5)).2.2.2.1 (by norm_num) le_rfl (by norm_num)
  have hv1 : 0 ≤ (Gamma_Distribution.ctor (2 : ℝ) 3 0).error := by
    rw [he1]
    decide
  have hv2 : 0 ≤ (Gamma_Distribution.ctor (2 : ℝ) 0 (1 / 5)).error := by
    rw [he2]
    decide
  obtain ⟨hs1, hs2, hk1, hk2, -, -⟩ :=
    skewness_kurtosis_shape_only realMath 2 3 0 0 (1 / 5) hv1 hv2
  have hsqrt : (2 : ℝ) / realMath.sqrt 2 = Real.sqrt 2 := by
    show (2 : ℝ) / Real.sqrt 2 = Real.sqrt 2
    have hpos : 0 < Real.sqrt 2 := Real.sqrt_pos.mpr (by norm_num)
    rw [div_eq_iff (ne_of_gt hpos)]
    exact (Real.mul_self_sqrt (by norm_num)).symm
  have h63 : (6 : ℝ) / 2 = 3 := by norm_num
  rw [hsqrt] at hs1 hs2
  rw [h63] at hk1 hk2
  exact ⟨hv1, hv2, hs1, hs2, hk1, hk2⟩

end Queries

/-! ## The accessors -/

section Accessors

variable {F : Type} [LinearOrderedField F]

end Accessors

/-! ## Relations between the queries -/

section Relations

variable {F : Type} [LinearOrderedField F]

/-- C12. `GetCDF` is non-decreasing in `x` for fixed valid parameters: if
`Lower_Incomplete_Gamma_Function(., shape)` is non-negative and non-decreasing on the
positive reals and `Gamma_Function(shape) > 0`, then for every validly constructed
object and all `x <= y`, `GetCDF(x) <= GetCDF(y)`.  This includes the jump at `0` and
a shape above `Gamma_Function_Max_Arg()`, where `GetCDF` is `0` then `1`. -/
theorem cdf_monotone (P : Provider F) (shape rate scale x y : F)
    (hv : 0 ≤ (Gamma_Distribution.ctor shape rate scale).error)
    (hG : 0 < P.Gamma_Function shape)
    (hnn : ∀ u, 0 < u → 0 ≤ P.Lower_Incomplete_Gamma_Function u shape)
    (hmono : ∀ u v, 0 < u → u ≤ v →
      P.Lower_Incomplete_Gamma_Function u shape ≤ P.Lower_Incomplete_Gamma_Function v shape)
    (hxy : x ≤ y) :
    ∃ cx cy, GetCDF P (Gamma_Distribution.ctor shape rate scale) x = some cx ∧
      GetCDF P (Gamma_Distribution.ctor shape rate scale) y = some cy ∧ cx ≤ cy := by
  obtain ⟨-, hbt⟩ := ctor_valid_params shape rate scale hv
  -- the argument passed to the incomplete Gamma function
  have key : ∃ a : F → F, (∀ u, 0 < u → 0 < a u) ∧ (∀ u v, u ≤ v → a u ≤ a v) ∧
      ∀ u, 0 < u → GetCDF P (Gamma_Distribution.ctor shape rate scale) u =
        if shape ≤ P.Gamma_Function_Max_Arg then
          some (P.Lower_Incomplete_Gamma_Function (a u) shape / P.Gamma_Function shape)
        else some 1 := by
    rcases hbt with h | h
    · refine ⟨fun u => u * rate, fun u hu => mul_pos hu h.1,
        fun u v huv => mul_le_mul_of_nonneg_right huv (le_of_lt h.1), ?_⟩
      intro u hu
      exact (GetPDF_GetCDF_rate_branch P _ u hv hu h.1).2
    · refine ⟨fun u => u / scale, fun u hu => div_pos hu h.2,
        fun u v huv => div_le_div_of_nonneg_right huv (le_of_lt h.2), ?_⟩
      intro u hu
      exact (GetPDF_GetCDF_scale_branch P _ u hv hu h.1 h.2).2
  obtain ⟨a, hapos, hamono, hcdf⟩ := key
  -- the value of `GetCDF` at a positive argument, and its properties
  have val : ∃ g : F → F, (∀ u, 0 < u → 0 ≤ g u) ∧ (∀ u v, 0 < u → u ≤ v → g u ≤ g v) ∧
      ∀ u, 0 < u → GetCDF P (Gamma_Distribution.ctor shape rate scale) u = some (g u) := by
    by_cases hs : shape ≤ P.Gamma_Function_Max_Arg
    · refine ⟨fun u => P.Lower_Incomplete_Gamma_Function (a u) shape / P.Gamma_Function shape,
        fun u hu => div_nonneg (hnn _ (hapos u hu)) (le_of_lt hG),
        fun u v hu huv => div_le_div_of_nonneg_right
          (hmono _ _ (hapos u hu) (hamono u v huv)) (le_of_lt hG), ?_⟩
      intro u hu
      rw [hcdf u hu, if_pos hs]
    · refine ⟨fun _ => 1, fun _ _ => zero_le_one, fun _ _ _ _ => le_rfl, ?_⟩
      intro u hu
      rw [hcdf u hu, if_neg hs]
  obtain ⟨g, hg0, hgmono, hval⟩ := val
  rcases le_or_lt y 0 with hy | hy
  · exact ⟨0, 0, (GetPDF_GetCDF_nonpos P _ x hv (le_trans hxy hy)).2,
      (GetPDF_GetCDF_nonpos P _ y hv hy).2, le_rfl⟩
  · rcases le_or_lt x 0 with hx | hx
    · exact ⟨0, g y, (GetPDF_GetCDF_nonpos P _ x hv hx).2, hval y hy, hg0 y hy⟩
    · exact ⟨g x, g y, hval x hx, hval y hy, hgmono x y hx hxy⟩

/-- C12 at shape `1`, rate `1`, scale `0` over the real provider, where the incomplete
integral is `1 - e^(-u)`, with `x = 1` and `y = 2`. -/
theorem cdf_monotone_witness :
    0 ≤ (Gamma_Distribution.ctor (1 : ℝ) 1 0).error ∧
    0 < realMath.Gamma_Function 1 ∧
    (∀ u, 0 < u → 0 ≤ realMath.Lower_Incomplete_Gamma_Function u 1) ∧
    (∀ u v, 0 < u → u ≤ v →
      realMath.Lower_Incomplete_Gamma_Function u 1 ≤
        realMath.Lower_Incomplete_Gamma_Function v 1) ∧
    (1 : ℝ) ≤ 2 ∧
    ∃ cx cy, GetCDF realMath (Gamma_Distribution.ctor 1 1 0) 1 = some cx ∧
      GetCDF realMath (Gamma_Distribution.ctor 1 1 0) 2 = some cy ∧ cx ≤ cy := by
  have hv : 0 ≤ (Gamma_Distribution.ctor (1 : ℝ) 1 0).error := by
    rw [ctor_error_rate_form (1 : ℝ) 1 0 one_pos one_pos le_rfl]
    decide
  have hG : 0 < realMath.Gamma_Function 1 := by
    show 0 < Real.Gamma 1
    rw [Real.Gamma_one]
    exact one_pos
  have hnn : ∀ u, 0 < u → 0 ≤ realMath.Lower_Incomplete_Gamma_Function u 1 :=
    realMath_lower_incomplete_one_nonneg
  have hmono : ∀ u v, 0 < u → u ≤ v →
      realMath.Lower_Incomplete_Gamma_Function u 1 ≤
        realMath.Lower_Incomplete_Gamma_Function v 1 :=
    fun u v _ huv => realMath_lower_incomplete_one_mono u v huv
  exact ⟨hv, hG, hnn, hmono, by norm_num,
    cdf_monotone realMath 1 1 0 1 2 hv hG hnn hmono (by norm_num)⟩

/-- C13. The two parameterizations carry the same distribution: for `shape > 0` and
`b > 0`, with `pow(1/b, s) = 1/pow(b, s)` as over the reals, the objects built from
`(shape, b, 0)` and `(shape, 0, 1/b)` return equal `GetMean()`, `GetVariance()`,
`GetStdDeviation()`, and equal `GetPDF(x)` and `GetCDF(x)` for every `x`, for the same
provider. -/
theorem parameterizations_agree (P : Provider F) (shape b x : F)
    (hs : 0 < shape) (hb : 0 < b) (hpow : ∀ s, P.pow (1 / b) s = 1 / P.pow b s) :
    GetMean (Gamma_Distribution.ctor shape b 0) =
      GetMean (Gamma_Distribution.ctor shape 0 (1 / b)) ∧
    GetVariance P (Gamma_Distribution.ctor shape b 0) =
      GetVariance P (Gamma_Distribution.ctor shape 0 (1 / b)) ∧
    GetStdDeviation P (Gamma_Distribution.ctor shape b 0) =
      GetStdDeviation P (Gamma_Distribution.ctor shape 0 (1 / b)) ∧
    GetPDF P (Gamma_Distribution.ctor shape b 0) x =
      GetPDF P (Gamma_Distribution.ctor shape 0 (1 / b)) x ∧
    GetCDF P (Gamma_Distribution.ctor shape b 0) x =
      GetCDF P (Gamma_Distribution.ctor shape 0 (1 / b)) x := by
  have hθ : 0 < 1 / b := one_div_pos.mpr hb
  have hbne : b ≠ 0 := ne_of_gt hb
  have hv1 : 0 ≤ (Gamma_Distribution.ctor shape b 0).error := by
    rw [ctor_error_rate_form shape b 0 hs hb le_rfl]
    decide
  have hv2 : 0 ≤ (Gamma_Distribution.ctor shape 0 (1 / b)).error := by
    rw [ctor_error_scale_form shape 0 (1 / b) hs le_rfl hθ]
    decide
  have hb1 : (Gamma_Distribution.ctor shape b 0).Beta > 0 := hb
  have hb2 : ¬ (Gamma_Distribution.ctor shape 0 (1 / b)).Beta > 0 := lt_irrefl (0 : F)
  have ht2 : (Gamma_Distribution.ctor shape 0 (1 / b)).Theta > 0 := hθ
  obtain ⟨m1, v1, s1, -, -⟩ := moments_rate_branch P _ hv1 hb1
  obtain ⟨m2, v2, s2, -, -⟩ := moments_scale_branch P _ hv2 hb2 ht2
  have hvar : shape / P.pow b 2 = shape * P.pow (1 / b) 2 := by
    rw [hpow 2, mul_one_div]
  refine ⟨?_, ?_, ?_, ?_, ?_⟩
  · rw [m1, m2]
    show some (shape / b) = some (shape * (1 / b))
    rw [mul_one_div]
  · rw [v1, v2]
    show some (shape / P.pow b 2) = some (shape * P.pow (1 / b) 2)
    rw [hvar]
  · rw [s1, s2]
    show some (P.sqrt (shape / P.pow b 2)) = some (P.sqrt (shape * P.pow (1 / b) 2))
    rw [hvar]
  · rcases le_or_lt x 0 with hx | hx
    · rw [(GetPDF_GetCDF_nonpos P _ x hv1 hx).1, (GetPDF_GetCDF_nonpos P _ x hv2 hx).1]
    · rw [(GetPDF_GetCDF_rate_branch P _ x hv1 hx hb1).1,
        (GetPDF_GetCDF_scale_branch P _ x hv2 hx hb2 ht2).1]
      show (if shape ≤ P.Gamma_Function_Max_Arg then
          some (P.pow b shape * P.pow x (shape - 1) * P.exp (-b * x) / P.Gamma_Function shape)
        else some (P.exp ((shape - 1) * P.log x - x - P.Ln_Gamma_Function shape))) =
        (if shape ≤ P.Gamma_Function_Max_Arg then
          some (P.pow x (shape - 1) * P.exp (-x / (1 / b))
            / (P.pow (1 / b) shape * P.Gamma_Function shape))
        else some (P.exp ((shape - 1) * P.log x - x - P.Ln_Gamma_Function shape)))
      have harg : -x / (1 / b) = -b * x := by
        field_simp
        ring
      have hval : P.pow b shape * P.pow x (shape - 1) * P.exp (-b * x) / P.Gamma_Function shape
          = P.pow x (shape - 1) * P.exp (-b * x)
            / (1 / P.pow b shape * P.Gamma_Function shape) := by
        rw [one_div, div_eq_mul_inv, div_eq_mul_inv, mul_inv, inv_inv]
        ring
      rw [harg, hpow shape, hval]
  · rcases le_or_lt x 0 with hx | hx
    · rw [(GetPDF_GetCDF_nonpos P _ x hv1 hx).2, (GetPDF_GetCDF_nonpos P _ x hv2 hx).2]
    · rw [(GetPDF_GetCDF_rate_branch P _ x hv1 hx hb1).2,
        (GetPDF_GetCDF_scale_branch P _ x hv2 hx hb2 ht2).2]
      show (if shape ≤ P.Gamma_Function_Max_Arg then
          some (P.Lower_Incomplete_Gamma_Function (x * b) shape / P.Gamma_Function shape)
        else some 1) =
        (if shape ≤ P.Gamma_Function_Max_Arg then
          some (P.Lower_Incomplete_Gamma_Function (x / (1 / b)) shape
            / P.Gamma_Function shape)
        else some 1)
      have harg : x / (1 / b) = x * b := by
        field_simp
      rw [harg]

/-- C13 at shape `2`, `b = 3` and `x = 1` over the real provider: the objects built
from `(2, 3, 0)` and `(2, 0, 1/3)` agree on all five queries. -/
theorem parameterizations_agree_witness :
    (0 : ℝ) < 2 ∧ (0 : ℝ) < 3 ∧
    (∀ s, realMath.pow (1 / 3) s = 1 / realMath.pow 3 s) ∧
    GetMean (Gamma_Distribution.ctor (2 : ℝ) 3 0) =
      GetMean (Gamma_Distribution.ctor (2 : ℝ) 0 (1 / 3)) ∧
    GetVariance realMath (Gamma_Distribution.ctor 2 3 0) =
      GetVariance realMath (Gamma_Distribution.ctor 2 0 (1 / 3)) ∧
    GetStdDeviation realMath (Gamma_Distribution.ctor 2 3 0) =
      GetStdDeviation realMath (Gamma_Distribution.ctor 2 0 (1 / 3)) ∧
    GetPDF realMath (Gamma_Distribution.ctor 2 3 0) 1 =
      GetPDF realMath (Gamma_Distribution.ctor 2 0 (1 / 3)) 1 ∧
    GetCDF realMath (Gamma_Distribution.ctor 2 3 0) 1 =
      GetCDF realMath (Gamma_Distribution.ctor 2 0 (1 / 3)) 1 :=
  have hpow : ∀ s, realMath.pow (1 / 3) s = 1 / realMath.pow 3 s :=
    fun s => realMath_pow_one_div 3 s (by norm_num)
  ⟨by norm_num, by norm_num, hpow,
    parameterizations_agree realMath 2 3 1 (by norm_num) (by norm_num) hpow⟩

/-- C17. In the branch for a shape above `Gamma_Function_Max_Arg()` the density ignores
rate and scale: any two validly constructed objects with such a shape, in either
parameterization, return the same `GetPDF(x)` for every `x`, namely `0` for `x <= 0`
and `exp((shape-1)*log(x) - x - Ln_Gamma_Function(shape))` for `x > 0`. -/
theorem pdf_large_shape_ignores_rate_scale (P : Provider F)
    (shape rate₁ scale₁ rate₂ scale₂ x : F)
    (hv₁ : 0 ≤ (Gamma_Distribution.ctor shape rate₁ scale₁).error)
    (hv₂ : 0 ≤ (Gamma_Distribution.ctor shape rate₂ scale₂).error)
    (hs : P.Gamma_Function_Max_Arg < shape) :
    GetPDF P (Gamma_Distribution.ctor shape rate₁ scale₁) x =
      GetPDF P (Gamma_Distribution.ctor shape rate₂ scale₂) x ∧
    GetPDF P (Gamma_Distribution.ctor shape rate₁ scale₁) x =
      (if x ≤ 0 then some 0
       else some (P.exp ((shape - 1) * P.log x - x - P.Ln_Gamma_Function shape))) := by
  have hone : ∀ b t : F, 0 ≤ (Gamma_Distribution.ctor shape b t).error →
      GetPDF P (Gamma_Distribution.ctor shape b t) x =
        (if x ≤ 0 then some 0
         else some (P.exp ((shape - 1) * P.log x - x - P.Ln_Gamma_Function shape))) := by
    intro b t hv
    obtain ⟨-, hbt⟩ := ctor_valid_params shape b t hv
    have hs' : ¬ (Gamma_Distribution.ctor shape b t).Alpha ≤ P.Gamma_Function_Max_Arg :=
      not_le.mpr hs
    rcases le_or_lt x 0 with hx | hx
    · rw [(GetPDF_GetCDF_nonpos P _ x hv hx).1, if_pos hx]
    · rw [if_neg (not_le.mpr hx)]
      rcases hbt with h | h
      · rw [(GetPDF_GetCDF_rate_branch P _ x hv hx h.1).1, if_neg hs']
        rfl
      · rw [(GetPDF_GetCDF_scale_branch P _ x hv hx h.1 h.2).1, if_neg hs']
        rfl
  exact ⟨by rw [hone _ _ hv₁, hone _ _ hv₂], hone _ _ hv₁⟩

/-- C17 at shape `200`, above the threshold `171` of the real provider: the objects
built from `(200, 1, 0)` and `(200, 0, 5)` have the same `GetPDF(1)`. -/
theorem pdf_large_shape_ignores_rate_scale_witness :
    0 ≤ (Gamma_Distribution.ctor (200 : ℝ) 1 0).error ∧
    0 ≤ (Gamma_Distribution.ctor (200 : ℝ) 0 5).error ∧
    realMath.Gamma_Function_Max_Arg < 200 ∧
    GetPDF realMath (Gamma_Distribution.ctor 200 1 0) 1 =
      GetPDF realMath (Gamma_Distribution.ctor 200 0 5) 1 := by
  have hv1 : 0 ≤ (Gamma_Distribution.ctor (200 : ℝ) 1 0).error := by
    rw [ctor_error_large_shape]
    decide
  have hv2 : 0 ≤ (Gamma_Distribution.ctor (200 : ℝ) 0 5).error := by
    rw [ctor_error_scale_form (200 : ℝ) 0 5 (by norm_num) le_rfl (by norm_num)]
    decide
  have hs : realMath.Gamma_Function_Max_Arg < 200 := by
    show (171 : ℝ) < 200
    norm_num
  exact ⟨hv1, hv2, hs,
    (pdf_large_shape_ignores_rate_scale realMath 200 1 0 0 5 1 hv1 hv2 hs).1⟩

end Relations

/-! ## The bisection loop -/

section Bisection

variable {F : Type} [LinearOrderedField F]

/-- C15. For every constructed object and every `p` with `0 < p < 1`, the loop of
`GetQuantile` is left after at least `1` and at most `70` executions of its body, one
`GetCDF` evaluation each: it stops at the first execution whose error
`|GetCDF(Vm) - p|` is at most `1e-7`, or at execution `70`, whichever comes first. -/
theorem quantile_loop_iterations (P : Provider F) (shape rate scale p : F)
    (hp0 : 0 < p) (hp1 : p < 1) :
    ∃ s, GetQuantile_loop P (Gamma_Distribution.ctor shape rate scale) p 100 0 0 = some s ∧
      GetQuantile P (Gamma_Distribution.ctor shape rate scale) p =
        (if s.i ≥ 70 then some (-9999) else some s.Vm) ∧
      1 ≤ s.i ∧ s.i ≤ 70 ∧
      GetQuantile_locals P (Gamma_Distribution.ctor shape rate scale) p (s.i - 1) = some s ∧
      (∀ j, j < s.i - 1 →
        ∃ t, GetQuantile_locals P (Gamma_Distribution.ctor shape rate scale) p j = some t ∧
          GetCDF P (Gamma_Distribution.ctor shape rate scale) t.Vm = some t.Pr ∧
          t.Eps = |t.Pr - p| ∧ t.Eps > CONSTANT_EpsStop) ∧
      GetCDF P (Gamma_Distribution.ctor shape rate scale) s.Vm = some s.Pr ∧
      s.Eps = |s.Pr - p| ∧
      (s.Eps ≤ CONSTANT_EpsStop ∨ s.i = 70) := by
  obtain ⟨s, hs⟩ := GetQuantile_loop_isSome P (Gamma_Distribution.ctor shape rate scale) p
    (GetCDF_ctor_defined P shape rate scale) 70 0 100 0 rfl
  obtain ⟨h1, h70, hloc, hprev, hlast, -⟩ := GetQuantile_loop_run P _ p s hs
  obtain ⟨-, hc, hEps, -⟩ := GetQuantile_loop_exit P _ p 70 0 100 0 s rfl hs
  refine ⟨s, hs, GetQuantile_of_loop P _ p hp0 hp1 s hs, h1, h70, hloc, ?_, hc, hEps, hlast⟩
  intro j hj
  obtain ⟨t, ht, hgt⟩ := hprev j hj
  obtain ⟨Vh, Vl, -, hbody⟩ := GetQuantile_locals_inv P _ p j t ht
  obtain ⟨-, htc, htE, -⟩ := GetQuantile_body_spec P _ p Vh Vl j t hbody
  exact ⟨t, ht, htc, htE, hgt⟩

/-- C15 at shape `200`, rate `1`, scale `0` and `p = 0.99999999` over the real
provider: the loop is left after one execution, with the tolerance met. -/
theorem quantile_loop_iterations_witness :
    (0 : ℝ) < 99999999 / 100000000 ∧ (99999999 / 100000000 : ℝ) < 1 ∧
    ∃ s, GetQuantile_loop realMath (Gamma_Distribution.ctor 200 1 0) (99999999 / 100000000)
        100 0 0 = some s ∧ s.i = 1 ∧ s.Vm = 50 ∧ s.Eps ≤ CONSTANT_EpsStop := by
  obtain ⟨s, hs, -, -, -, -, -, -, -, hlast⟩ :=
    quantile_loop_iterations realMath 200 1 0 (99999999 / 100000000)
      (by norm_num) (by norm_num)
  obtain ⟨s', hs', hi, hVm, -⟩ := GetQuantile_loop_large_shape
  rw [hs] at hs'
  cases hs'
  refine ⟨by norm_num, by norm_num, s, hs, hi, hVm, ?_⟩
  rcases hlast with h | h
  · exact h
  · rw [hi] at h
    exact absurd h (by decide)

/-- C16. Loop invariant of the bisection, for every constructed object, every `p` and
every number `k` of executions of the body, whatever the provider (monotone or not):
`Vl` is the greatest midpoint tested so far whose `GetCDF` value is at most `p`, or
the initial `0` if there is none, and `Vh` is the least midpoint tested so far whose
`GetCDF` value exceeds `p`, or the initial `100` if there is none. -/
theorem quantile_loop_invariant (P : Provider F) (shape rate scale p : F) (k : Nat) :
    ∃ Vh Vl, GetQuantile_bracket P (Gamma_Distribution.ctor shape rate scale) p k
        = some (Vh, Vl) ∧
      (∀ mc ∈ GetQuantile_tested P (Gamma_Distribution.ctor shape rate scale) p k,
        GetCDF P (Gamma_Distribution.ctor shape rate scale) mc.1 = some mc.2) ∧
      ((∀ mc ∈ GetQuantile_tested P (Gamma_Distribution.ctor shape rate scale) p k,
          ¬ mc.2 ≤ p) → Vl = 0) ∧
      ((∃ mc ∈ GetQuantile_tested P (Gamma_Distribution.ctor shape rate scale) p k,
          mc.2 ≤ p) →
        (∃ c, (Vl, c) ∈ GetQuantile_tested P (Gamma_Distribution.ctor shape rate scale) p k ∧
          c ≤ p) ∧
        ∀ mc ∈ GetQuantile_tested P (Gamma_Distribution.ctor shape rate scale) p k,
          mc.2 ≤ p → mc.1 ≤ Vl) ∧
      ((∀ mc ∈ GetQuantile_tested P (Gamma_Distribution.ctor shape rate scale) p k,
          ¬ mc.2 > p) → Vh = 100) ∧
      ((∃ mc ∈ GetQuantile_tested P (Gamma_Distribution.ctor shape rate scale) p k,
          mc.2 > p) →
        (∃ c, (Vh, c) ∈ GetQuantile_tested P (Gamma_Distribution.ctor shape rate scale) p k ∧
          c > p) ∧
        ∀ mc ∈ GetQuantile_tested P (Gamma_Distribution.ctor shape rate scale) p k,
          mc.2 > p → Vh ≤ mc.1) := by
  obtain ⟨Vh, Vl, -, hb, -⟩ := GetQuantile_bracket_defined P
    (Gamma_Distribution.ctor shape rate scale) p (GetCDF_ctor_defined P shape rate scale) k
  obtain ⟨ha, hb2, hc, hd⟩ := GetQuantile_bracket_tested P _ p k Vh Vl hb
  have hspec := GetQuantile_tested_spec P (Gamma_Distribution.ctor shape rate scale) p k
  refine ⟨Vh, Vl, hb, fun mc hmc => (hspec mc hmc).2.2, ?_, ?_, ?_, ?_⟩
  · intro hnone
    rcases hc with h | ⟨c, h, hcp⟩
    · exact h
    · exact absurd hcp (hnone _ h)
  · rintro ⟨mc, hmc, hle⟩
    refine ⟨?_, ha⟩
    rcases hc with h | h
    · have h1 := ha mc hmc hle
      have h2 := (hspec mc hmc).1
      rw [h] at h1
      exact absurd h1 (not_le.mpr h2)
    · exact h
  · intro hnone
    rcases hd with h | ⟨c, h, hcp⟩
    · exact h
    · exact absurd hcp (hnone _ h)
  · rintro ⟨mc, hmc, hgt⟩
    refine ⟨?_, hb2⟩
    rcases hd with h | h
    · have h1 := hb2 mc hmc hgt
      have h2 := (hspec mc hmc).2.1
      rw [h] at h1
      exact absurd h1 (not_le.mpr h2)
    · exact h

/-- C18. For every object and every `p` with `0 < p < 1`, whenever `GetQuantile(p)`
returns a value `r` other than `-9999`, `r` is the midpoint `Vm` of the last execution
of the loop body and `|GetCDF(r) - p| <= 1e-7`. -/
theorem quantile_result_meets_tolerance (P : Provider F) (d : Gamma_Distribution F)
    (p r : F) (hp0 : 0 < p) (hp1 : p < 1) (hr : GetQuantile P d p = some r)
    (hne : r ≠ -9999) :
    ∃ s, GetQuantile_loop P d p 100 0 0 = some s ∧
      GetQuantile_locals P d p (s.i - 1) = some s ∧ s.Vm = r ∧
      ∃ c, GetCDF P d r = some c ∧ |c - p| ≤ CONSTANT_EpsStop := by
  cases hs : GetQuantile_loop P d p 100 0 0 with
  | none =>
    unfold GetQuantile at hr
    rw [if_neg (not_le.mpr hp0), if_neg (not_le.mpr hp1), hs] at hr
    exact absurd hr (by simp)
  | some s =>
    rw [GetQuantile_of_loop P d p hp0 hp1 s hs] at hr
    obtain ⟨-, -, hloc, -, hlast, -⟩ := GetQuantile_loop_run P d p s hs
    obtain ⟨-, hc, hEps, -⟩ := GetQuantile_loop_exit P d p 70 0 100 0 s rfl hs
    by_cases hi : s.i ≥ 70
    · rw [if_pos hi] at hr
      exact absurd (Option.some.inj hr).symm hne
    · rw [if_neg hi] at hr
      have hVm : s.Vm = r := Option.some.inj hr
      refine ⟨s, rfl, hloc, hVm, s.Pr, by rw [← hVm]; exact hc, ?_⟩
      rcases hlast with h | h
      · rw [← hEps]
        exact h
      · exact absurd (le_of_eq h.symm) hi

/-- C18 at shape `200`, rate `1`, scale `0` and `p = 0.99999999` over the real
provider: `GetQuantile(p)` returns `50`, the only midpoint tested, and `GetCDF(50)` is
within `1e-7` of `p`. -/
theorem quantile_result_meets_tolerance_witness :
    (0 : ℝ) < 99999999 / 100000000 ∧ (99999999 / 100000000 : ℝ) < 1 ∧
    GetQuantile realMath (Gamma_Distribution.ctor 200 1 0) (99999999 / 100000000) = some 50 ∧
    (50 : ℝ) ≠ -9999 ∧
    ∃ c, GetCDF realMath (Gamma_Distribution.ctor 200 1 0) 50 = some c ∧
      |c - 99999999 / 100000000| ≤ CONSTANT_EpsStop := by
  obtain ⟨s, hs, hi, hVm, -⟩ := GetQuantile_loop_large_shape
  have hq : GetQuantile realMath (Gamma_Distribution.ctor 200 1 0) (99999999 / 100000000)
      = some 50 := by
    rw [GetQuantile_of_loop realMath _ _ (by norm_num) (by norm_num) s hs, hi,
      if_neg (by decide), hVm]
  obtain ⟨-, -, -, -, hc⟩ := quantile_result_meets_tolerance realMath
    (Gamma_Distribution.ctor 200 1 0) (99999999 / 100000000) 50 (by norm_num) (by norm_num)
    hq (by norm_num)
  exact ⟨by norm_num, by norm_num, hq, by norm_num, hc⟩

/-- C19. Bracket invariant of the bisection, for every constructed object and every
`p` with `0 < p < 1`: after `k` executions of the body `0 <= Vl < Vh <= 100` and
`Vh - Vl == 100 / 2^k`; every tested midpoint lies strictly between `0` and `100`;
the loop is left with the bounds of one of these stages; and `GetQuantile(p)` returns
a value that is `-9999` or lies strictly between `0` and `100`. -/
theorem quantile_bracket_invariant (P : Provider F) (shape rate scale p : F)
    (hp0 : 0 < p) (hp1 : p < 1) :
    (∀ k, ∃ Vh Vl, GetQuantile_bracket P (Gamma_Distribution.ctor shape rate scale) p k
        = some (Vh, Vl) ∧ 0 ≤ Vl ∧ Vl < Vh ∧ Vh ≤ 100 ∧ Vh - Vl = 100 / 2 ^ k) ∧
    (∀ k, ∃ t, GetQuantile_locals P (Gamma_Distribution.ctor shape rate scale) p k = some t ∧
      0 < t.Vm ∧ t.Vm < 100) ∧
    (∃ s, GetQuantile_loop P (Gamma_Distribution.ctor shape rate scale) p 100 0 0 = some s ∧
      s.i ≤ 70 ∧
      GetQuantile_bracket P (Gamma_Distribution.ctor shape rate scale) p s.i
        = some (s.Vh, s.Vl)) ∧
    (∃ r, GetQuantile P (Gamma_Distribution.ctor shape rate scale) p = some r ∧
      (r ≠ -9999 → 0 < r ∧ r < 100)) := by
  have hdef := GetCDF_ctor_defined P shape rate scale
  have hall := GetQuantile_bracket_defined P (Gamma_Distribution.ctor shape rate scale) p hdef
  obtain ⟨s, hs⟩ := GetQuantile_loop_isSome P (Gamma_Distribution.ctor shape rate scale) p
    hdef 70 0 100 0 rfl
  obtain ⟨-, h70, hloc, -, -, hbr⟩ := GetQuantile_loop_run P _ p s hs
  refine ⟨?_, ?_, ⟨s, hs, h70, hbr⟩, ?_⟩
  · intro k
    obtain ⟨Vh, Vl, -, hb, -⟩ := hall k
    exact ⟨Vh, Vl, hb, GetQuantile_bracket_bounds P _ p k Vh Vl hb⟩
  · intro k
    obtain ⟨-, -, t, -, ht⟩ := hall k
    obtain ⟨-, -, -, -, -, h0, h100⟩ := GetQuantile_locals_midpoint P _ p k t ht
    exact ⟨t, ht, h0, h100⟩
  · rw [GetQuantile_of_loop P _ p hp0 hp1 s hs]
    by_cases hi : s.i ≥ 70
    · rw [if_pos hi]
      exact ⟨_, rfl, fun h => absurd rfl h⟩
    · rw [if_neg hi]
      obtain ⟨-, -, -, -, -, h0, h100⟩ := GetQuantile_locals_midpoint P _ p (s.i - 1) s hloc
      exact ⟨_, rfl, fun _ => ⟨h0, h100⟩⟩

/-- C19 at shape `2`, rate `1`, scale `0` and `p = 1/2` over the real provider: after
three executions of the body the bounds are `100/8` apart inside `[0, 100]`. -/
theorem quantile_bracket_invariant_witness :
    (0 : ℝ) < 1 / 2 ∧ (1 / 2 : ℝ) < 1 ∧
    ∃ Vh Vl, GetQuantile_bracket realMath (Gamma_Distribution.ctor 2 1 0) (1 / 2) 3
        = some (Vh, Vl) ∧ 0 ≤ Vl ∧ Vl < Vh ∧ Vh ≤ 100 ∧ Vh - Vl = 100 / 2 ^ 3 :=
  ⟨by norm_num, by norm_num,
    (quantile_bracket_invariant realMath 2 1 0 (1 / 2) (by norm_num) (by norm_num)).1 3⟩

/-- C20. For every invalidly constructed object and every `p` with `0 < p < 1`,
`GetQuantile(p)` returns `-9999`, which is not the construction status: at every
midpoint `GetCDF` yields the negative status, the error stays above `1e-7`, `Vl` is
raised to the midpoint while `Vh` stays `100`, and the loop runs until `i` is `70`. -/
theorem invalid_quantile_sentinel (P : Provider F) (shape rate scale p : F)
    (hinv : (Gamma_Distribution.ctor shape rate scale).error < 0)
    (hp0 : 0 < p) (hp1 : p < 1) :
    GetQuantile P (Gamma_Distribution.ctor shape rate scale) p = some (-9999) ∧
    (-9999 : F) ≠ (((Gamma_Distribution.ctor shape rate scale).error : Int) : F) ∧
    (∃ s, GetQuantile_loop P (Gamma_Distribution.ctor shape rate scale) p 100 0 0 = some s ∧
      s.i = 70) ∧
    (∀ k, ∃ Vl t,
      GetQuantile_bracket P (Gamma_Distribution.ctor shape rate scale) p k = some (100, Vl) ∧
      GetQuantile_locals P (Gamma_Distribution.ctor shape rate scale) p k = some t ∧
      t.Pr = (((Gamma_Distribution.ctor shape rate scale).error : Int) : F) ∧
      t.Eps > CONSTANT_EpsStop ∧ Vl < t.Vm ∧ t.Vl = t.Vm ∧ t.Vh = 100) := by
  have hcdf : ∀ x, GetCDF P (Gamma_Distribution.ctor shape rate scale) x =
      some (((Gamma_Distribution.ctor shape rate scale).error : Int) : F) := by
    intro x
    unfold GetCDF
    rw [if_pos hinv]
  have hle : (((Gamma_Distribution.ctor shape rate scale).error : Int) : F) ≤ -1 := by
    have h : (Gamma_Distribution.ctor shape rate scale).error ≤ -1 := by omega
    have h' : (((Gamma_Distribution.ctor shape rate scale).error : Int) : F)
        ≤ ((-1 : Int) : F) := Int.cast_le.mpr h
    rw [Int.cast_neg, Int.cast_one] at h'
    exact h'
  have hmem := ctor_error_mem shape rate scale
  have hEps : |(((Gamma_Distribution.ctor shape rate scale).error : Int) : F) - p|
      > CONSTANT_EpsStop := by
    show (1 : F) / 10000000 < _
    rw [lt_abs]
    right
    have h1 : (1 : F) / 10000000 < 1 := by
      rw [div_lt_one (by norm_num)]
      norm_num
    linarith
  have hnot : ¬ (((Gamma_Distribution.ctor shape rate scale).error : Int) : F) > p :=
    not_lt.mpr (by linarith)
  have hfar : ∀ x, 0 < x → x < 100 →
      ∃ c, GetCDF P (Gamma_Distribution.ctor shape rate scale) x = some c ∧
        |c - p| > CONSTANT_EpsStop := fun x _ _ => ⟨_, hcdf x, hEps⟩
  obtain ⟨s, hs, hi⟩ := GetQuantile_loop_exhausts P _ p hfar 70 0 100 0 rfl (by decide)
    le_rfl (by norm_num) le_rfl
  refine ⟨?_, ?_, ⟨s, hs, hi⟩, ?_⟩
  · rw [GetQuantile_of_loop P _ p hp0 hp1 s hs, if_pos (by omega)]
  · intro h
    have h4 : ((-4 : Int) : F) ≤ (((Gamma_Distribution.ctor shape rate scale).error : Int) : F) := by
      apply Int.cast_le.mpr
      have hm : Gamma_Distribution.ctor_error shape rate scale = 1 ∨
          Gamma_Distribution.ctor_error shape rate scale = -2 ∨
          Gamma_Distribution.ctor_error shape rate scale = -3 ∨
          Gamma_Distribution.ctor_error shape rate scale = -4 := hmem
      show -4 ≤ Gamma_Distribution.ctor_error shape rate scale
      omega
    rw [← h] at h4
    norm_num at h4
  · intro k
    induction k with
    | zero =>
      have hbody : GetQuantile_body P (Gamma_Distribution.ctor shape rate scale) p 100 0 0 =
          some { Vm := (100 + 0) / 2, Vh := 100, Vl := (100 + 0) / 2,
                 Pr := (((Gamma_Distribution.ctor shape rate scale).error : Int) : F),
                 Eps := |(((Gamma_Distribution.ctor shape rate scale).error : Int) : F) - p|,
                 i := 0 + 1 } := by
        unfold GetQuantile_body
        simp only [hcdf, if_neg hnot]
      refine ⟨0, { Vm := (100 + 0) / 2, Vh := 100, Vl := (100 + 0) / 2,
                   Pr := (((Gamma_Distribution.ctor shape rate scale).error : Int) : F),
                   Eps := |(((Gamma_Distribution.ctor shape rate scale).error : Int) : F) - p|,
                   i := 0 + 1 }, rfl, ?_, rfl, hEps, ?_, rfl, rfl⟩
      · rw [GetQuantile_locals_of_bracket P _ p 0 100 0 rfl, hbody]
      · show (0 : F) < (100 + 0) / 2
        norm_num
    | succ k ih =>
      obtain ⟨Vl, t, hb, ht, -, -, hlt, htVl, htVh⟩ := ih
      have hb' := GetQuantile_bracket_succ P _ p k t ht
      rw [htVh] at hb'
      obtain ⟨-, hVl100, -, -⟩ := GetQuantile_bracket_bounds P _ p (k + 1) 100 t.Vl hb'
      have hbody : GetQuantile_body P (Gamma_Distribution.ctor shape rate scale) p 100 t.Vl
          (k + 1) =
          some { Vm := (100 + t.Vl) / 2, Vh := 100, Vl := (100 + t.Vl) / 2,
                 Pr := (((Gamma_Distribution.ctor shape rate scale).error : Int) : F),
                 Eps := |(((Gamma_Distribution.ctor shape rate scale).error : Int) : F) - p|,
                 i := k + 1 + 1 } := by
        unfold GetQuantile_body
        simp only [hcdf, if_neg hnot]
      refine ⟨t.Vl, { Vm := (100 + t.Vl) / 2, Vh := 100, Vl := (100 + t.Vl) / 2,
                      Pr := (((Gamma_Distribution.ctor shape rate scale).error : Int) : F),
                      Eps := |(((Gamma_Distribution.ctor shape rate scale).error : Int) : F) - p|,
                      i := k + 1 + 1 }, hb', ?_, rfl, hEps, ?_, rfl, rfl⟩
      · rw [GetQuantile_locals_of_bracket P _ p (k + 1) 100 t.Vl hb', hbody]
      · show t.Vl < (100 + t.Vl) / 2
        linarith

/-- C20 at shape `0`, rate `1`, scale `0` (status `-2`) and `p = 1/2` over the real
provider: `GetQuantile(1/2)` returns `-9999`. -/
theorem invalid_quantile_sentinel_witness :
    (Gamma_Distribution.ctor (0 : ℝ) 1 0).error < 0 ∧
    (0 : ℝ) < 1 / 2 ∧ (1 / 2 : ℝ) < 1 ∧
    GetQuantile realMath (Gamma_Distribution.ctor 0 1 0) (1 / 2) = some (-9999) := by
  have hinv : (Gamma_Distribution.ctor (0 : ℝ) 1 0).error < 0 := by
    rw [ctor_error_zero_one_zero]
    decide
  exact ⟨hinv, by norm_num, by norm_num,
    (invalid_quantile_sentinel realMath 0 1 0 (1 / 2) hinv (by norm_num) (by norm_num)).1⟩

end Bisection

end GammaDist
